import Mathlib

/-!
# Lossless-MLP-Example: the spiral dataset and the calls `main` makes

`src/main.go` builds a three-armed spiral dataset, shuffles it, splits it into
training and held-out data and hands both to a feed-forward network engine.

The first part of this file embeds `main.go`: the generation loop, the swap
callback passed to `rand.Shuffle`, the slicing done by `main` and the literals of
`main`.  The embedding is written once, over any scalar type with the operations the
program uses, and is read at two arithmetics:

* `Float64`, Go's `float64` (IEEE 754 binary64, round to nearest, ties to even), which
  is what the program computes with: the loop variable is `2.9999999999999973 < 3`
  after 56 additions of `0.05`, so the loop body runs 57 times;
* a linearly ordered field (`ℚ`, or `ℝ` with `Real.sin` and `Real.cos`), for the
  statements that are about exact real arithmetic: there the loop body runs 56 times.

The sine and cosine functions are parameters.

The engine (`networks.Perceptron`, the layers) is imported by `main.go` from another
module; the parts of it that are needed are modelled from the specification and
are marked as such.
-/

set_option linter.unusedVariables false
set_option linter.unusedSectionVars false

namespace Lossless

/-! ## Part 1: definitions -/

/-- Modelled from the spec: `datasets.DataPoint` is declared in the imported engine;
the spec's *Example* is a pair of an input vector and a target vector. -/
structure DataPoint (α : Type) where
  Input : List α
  Output : List α
deriving DecidableEq, Repr

section Dataset
variable {α : Type} [Add α] [Sub α] [Mul α] [LT α] [DecidableRel (fun a b : α => a < b)]
  [OfScientific α] [OfNat α 0] [OfNat α 1] [OfNat α 3]

/-- The three points `p1`, `p2`, `p3` one iteration of the loop of `GetSpiralDataset`
appends, at radius `r`. -/
def spiralPoints (sin cos : α → α) (r : α) : List (DataPoint α) :=
  let p1 : DataPoint α := { Input := [r * sin r, r * cos r], Output := [1, 0, 0] }
  let p2 : DataPoint α :=
    { Input := [r * sin (r + 2.049), r * cos (r + 2.049)], Output := [0, 1, 0] }
  let p3 : DataPoint α :=
    { Input := [r * sin (r - 2.049), r * cos (r - 2.049)], Output := [0, 0, 1] }
  [p1, p2, p3]

/-- The loop `for r := 0.2; r < 3; r += 0.05 { ...; points = append(points, p1, p2, p3) }`.
The loop variable has the scalar type `α`, whose constants, addition and comparison are
used: `Float64` for the program as it runs.  The fuel bounds the number of times the
loop condition is tested; `none` means the fuel ran out before the condition became
false. -/
def spiralLoop (sin cos : α → α) : Nat → α → List (DataPoint α) → Option (List (DataPoint α))
  | 0, _, _ => none
  | fuel + 1, r, points =>
    if r < 3 then
      spiralLoop sin cos fuel (r + 0.05) (points ++ spiralPoints sin cos r)
    else
      some points

end Dataset

/-- The callback `func(i, j int) { points[i], points[j] = points[j], points[i] }`:
both elements are read, then `points[i]` and `points[j]` are written.  An index out
of range is a run-time panic, `none` here. -/
def swapCallback {β : Type} (points : List β) (i j : Nat) : Option (List β) :=
  if h : i < points.length ∧ j < points.length then
    let pi := points.get ⟨i, h.1⟩
    let pj := points.get ⟨j, h.2⟩
    some ((points.set i pj).set j pi)
  else
    none

/-- The loop of `rand.Shuffle`: `for i := n - 1; i > 0; i-- { j := Intn(i + 1); swap(i, j) }`.
The random source is the parameter `rnd`; the draw made at index `i` is reduced modulo
`i + 1`, the range `Intn(i + 1)` guarantees. -/
def shuffleLoop {σ : Type} (rnd : Nat → Nat) (swap : σ → Nat → Nat → Option σ) :
    Nat → σ → Option σ
  | 0, s => some s
  | i + 1, s =>
    match swap s (i + 1) (rnd (i + 1) % (i + 2)) with
    | some s1 => shuffleLoop rnd swap i s1
    | none => none

/-- The call `rand.Shuffle(n, swap)` of the Go standard library, over an explicit state. -/
def Shuffle {σ : Type} (rnd : Nat → Nat) (n : Nat) (swap : σ → Nat → Nat → Option σ)
    (s : σ) : Option σ :=
  shuffleLoop rnd swap (n - 1) s

/-- The function `GetSpiralDataset` of `main.go`: the generation loop from `r = 0.2`,
then `rand.Shuffle(len(points), swap)`. -/
def GetSpiralDataset {α : Type} [Add α] [Sub α] [Mul α] [LT α]
    [DecidableRel (fun a b : α => a < b)] [OfScientific α] [OfNat α 0] [OfNat α 1] [OfNat α 3]
    (sin cos : α → α) (rnd : Nat → Nat) (fuel : Nat) : Option (List (DataPoint α)) :=
  match spiralLoop sin cos fuel 0.2 [] with
  | some points => Shuffle rnd points.length swapCallback points
  | none => none

/-- The statement `trainingData, testingData := data[:120], data[120:]` of `main`.
Slicing past the end of `data` is a run-time panic, `none` here. -/
def mainPartition {β : Type} (data : List β) : Option (List β × List β) :=
  if 120 ≤ data.length then some (data.take 120, data.drop 120) else none

/-! ### Go's `float64` -/

/-- A value of Go's `float64`, an IEEE 754 binary64 number: a finite value
`(-1)^neg * m * 2^e`, an infinity, or NaN.  The operations below return finite values
in canonical form: `e = -1074` and `m < 2^52` for zero and the subnormal numbers,
`2^52 ≤ m < 2^53` and `-1074 ≤ e ≤ 971` for the normal ones. -/
inductive Float64
  | finite (neg : Bool) (m : Nat) (e : Int)
  | inf (neg : Bool)
  | nan
deriving DecidableEq, Repr

/-- The number of halvings that bring `n` below 2, at most `fuel` of them. -/
def floorLog2Fuel : Nat → Nat → Nat
  | 0, _ => 0
  | fuel + 1, n => if n < 2 then 0 else floorLog2Fuel fuel (n / 2) + 1

/-- The integer part of the binary logarithm of a positive natural number. -/
def floorLog2 (n : Nat) : Nat := floorLog2Fuel n n

/-- The integer part of the binary logarithm of `num / den`, for positive `num` and
`den`: the difference `d` of the two logarithms, or `d - 1` when `num / den < 2^d`. -/
def floorLog2Ratio (num den : Nat) : Int :=
  let d : Int := (floorLog2 num : Int) - (floorLog2 den : Int)
  if den * 2 ^ d.toNat ≤ num * 2 ^ (-d).toNat then d else d - 1

/-- The binary64 number nearest to `(-1)^neg * num / den` (`den` positive), ties going
to the even significand.  The spacing of the binary64 numbers around the value is
`2^q` with `q = max (floor (log2 (num / den)) - 52) (-1074)`; the value is divided by
the spacing and the quotient rounded.  A result beyond the largest finite number
`(2^53 - 1) * 2^971` is an infinity. -/
def Float64.round (neg : Bool) (num den : Nat) : Float64 :=
  if num = 0 then
    .finite neg 0 (-1074)
  else
    let q : Int := max (floorLog2Ratio num den - 52) (-1074)
    let n := num * 2 ^ (-q).toNat
    let d := den * 2 ^ q.toNat
    let qt := n / d
    let rem := n % d
    let m :=
      if 2 * rem < d then qt
      else if d < 2 * rem then qt + 1
      else if qt % 2 = 0 then qt
      else qt + 1
    if m = 2 ^ 53 then
      if 971 < q + 1 then .inf neg else .finite neg (2 ^ 52) (q + 1)
    else if 971 < q then .inf neg
    else .finite neg m q

/-- The integer `(-1)^neg * m * 2^(e - c)`: a finite value counted in units of `2^c`,
for `c ≤ e`. -/
def Float64.signed (neg : Bool) (m : Nat) (e c : Int) : Int :=
  let i : Int := (m * 2 ^ (e - c).toNat : Nat)
  if neg then -i else i

/-- The `float64` addition `a + b`: the exact sum, rounded.  An exact sum of zero is `+0`
unless both operands are `-0`. -/
def Float64.add : Float64 → Float64 → Float64
  | .nan, _ => .nan
  | _, .nan => .nan
  | .inf s, .inf t => if s = t then .inf s else .nan
  | .inf s, .finite _ _ _ => .inf s
  | .finite _ _ _, .inf t => .inf t
  | .finite s m e, .finite t n f =>
    let c := min e f
    let sum := Float64.signed s m e c + Float64.signed t n f c
    if sum = 0 then .finite (s && t) 0 (-1074)
    else Float64.round (decide (sum < 0)) (sum.natAbs * 2 ^ c.toNat) (2 ^ (-c).toNat)

/-- The `float64` negation `-a`. -/
def Float64.neg : Float64 → Float64
  | .nan => .nan
  | .inf s => .inf (!s)
  | .finite s m e => .finite (!s) m e

/-- The `float64` multiplication `a * b`: the exact product, rounded. -/
def Float64.mul : Float64 → Float64 → Float64
  | .nan, _ => .nan
  | _, .nan => .nan
  | .inf s, .inf t => .inf (xor s t)
  | .inf s, .finite t n _ => if n = 0 then .nan else .inf (xor s t)
  | .finite s m _, .inf t => if m = 0 then .nan else .inf (xor s t)
  | .finite s m e, .finite t n f =>
    Float64.round (xor s t) (m * n * 2 ^ (e + f).toNat) (2 ^ (-(e + f)).toNat)

/-- The `float64` comparison `a < b`: false when an operand is NaN, and `-0` is not below
`+0`. -/
def Float64.lt : Float64 → Float64 → Bool
  | .nan, _ => false
  | _, .nan => false
  | .inf s, .inf t => s && !t
  | .inf s, .finite _ _ _ => s
  | .finite _ _ _, .inf t => !t
  | .finite s m e, .finite t n f =>
    let c := min e f
    decide (Float64.signed s m e c < Float64.signed t n f c)

instance Float64.instAdd : Add Float64 := ⟨Float64.add⟩

instance Float64.instNeg : Neg Float64 := ⟨Float64.neg⟩

instance Float64.instSub : Sub Float64 := ⟨fun a b => Float64.add a (Float64.neg b)⟩

instance Float64.instMul : Mul Float64 := ⟨Float64.mul⟩

instance Float64.instLT : LT Float64 := ⟨fun a b => Float64.lt a b = true⟩

instance Float64.decidableLT : DecidableRel (fun a b : Float64 => a < b) :=
  fun a b => inferInstanceAs (Decidable (Float64.lt a b = true))

/-- An integer constant such as `3`, `1` or `0` used as a `float64`: the nearest binary64
number. -/
instance Float64.instOfNat (n : Nat) : OfNat Float64 n := ⟨Float64.round false n 1⟩

/-- A decimal constant such as `0.2`, `0.05` or `2.049` used as a `float64`: Go evaluates
constants exactly and converts them to the nearest binary64 number. -/
instance Float64.instOfScientific : OfScientific Float64 :=
  ⟨fun mantissa exponentSign decimalExponent =>
    if exponentSign then Float64.round false mantissa (10 ^ decimalExponent)
    else Float64.round false (mantissa * 10 ^ decimalExponent) 1⟩

/-! ### Specification-side descriptions of the generated data -/

/-- The radii the loop of `GetSpiralDataset` visits from `r` on, in order: the values the
loop variable takes while `r < 3`, each `0.05` above the one before.  As in
`spiralLoop`, the fuel bounds the number of tests of the loop condition. -/
def loopRadii {α : Type} [Add α] [LT α] [DecidableRel (fun a b : α => a < b)]
    [OfScientific α] [OfNat α 3] : Nat → α → Option (List α)
  | 0, _ => none
  | fuel + 1, r =>
    if r < 3 then (loopRadii fuel (r + 0.05)).map (fun rs => r :: rs) else some []

section Radii
variable {α : Type} [LinearOrderedField α]

/-- The radius `0.2 + 0.05 * k` the loop variable holds in iteration `k` when it is
computed exactly. -/
def spiralRadius (k : Nat) : α := 0.2 + 0.05 * (k : α)

/-- The 56 radii `k = 0..55` for which `0.2 + 0.05 * k < 3`. -/
def spiralRadii : List α := (List.range 56).map spiralRadius

/-- The points of all 56 radii in generation order, three per radius. -/
def generatedPoints (sin cos : α → α) : List (DataPoint α) :=
  (spiralRadii (α := α)).flatMap (spiralPoints sin cos)

end Radii

/-! ### The engine `main` calls, as far as the specification describes it -/

/-- Modelled from the spec: the engine's error taxonomy (the engine is not part of
`src/`). -/
inductive EngineError
  | ConfigurationError
  | DimensionError
  | IOError
  | CorruptFormatError
deriving DecidableEq, Repr

/-- Modelled from the spec: a layer specification names a variant and, where
applicable, its output width; `main.go` writes them `&layers.LinearLayer{Outputs: 7}`,
`&layers.TanhLayer{}` and `&layers.SoftmaxLayer{}`. -/
inductive LayerSpec
  | LinearLayer (Outputs : Int)
  | TanhLayer
  | SoftmaxLayer
deriving DecidableEq, Repr

/-- Modelled from the spec: an initialised layer knows its variant, its input and
output dimensionality, its parameters and its gradient accumulator.  The parameter
space `P` is a parameter of the model. -/
structure Layer (P : Type) where
  spec : LayerSpec
  inputSize : Int
  outputSize : Int
  params : P
  accumulated : P

/-- Modelled from the spec: the network owns its layers and the hyperparameters
`BatchSize` and `LearningRate`. -/
structure Perceptron (P α : Type) where
  layers : List (Layer P)
  BatchSize : Int
  LearningRate : α

/-- Modelled from the spec: the value `networks.Perceptron{}` that `main` starts from, with
no layers and zero hyperparameters. -/
def Perceptron.empty {P α : Type} [Zero α] : Perceptron P α :=
  { layers := [], BatchSize := 0, LearningRate := 0 }

/-- Modelled from the spec: the output dimensionality a layer of this specification
returns when initialised with `inputSize`: the configured width of a Linear layer,
the input size of the elementwise Tanh and of Softmax. -/
def LayerSpec.outputWidth (spec : LayerSpec) (inputSize : Int) : Int :=
  match spec with
  | .LinearLayer outputs => outputs
  | .TanhLayer => inputSize
  | .SoftmaxLayer => inputSize

/-- Modelled from the spec: the layer operation `Initialize(inputSize) -> outputSize`.  It
fails with `DimensionError` when `inputSize` is non-positive; otherwise it allocates the
parameters (`draw` stands for the random initialisation of layer number `index`),
clears the accumulator and returns the output dimensionality. -/
def LayerSpec.Initialize {P : Type} [Zero P] (draw : Nat → LayerSpec → Int → P) (index : Nat)
    (spec : LayerSpec) (inputSize : Int) : Except EngineError (Layer P × Int) :=
  if inputSize ≤ 0 then
    .error .DimensionError
  else
    .ok ({ spec := spec, inputSize := inputSize, outputSize := spec.outputWidth inputSize,
           params := draw index spec inputSize, accumulated := 0 },
         spec.outputWidth inputSize)

/-- Modelled from the spec: sequential wiring.  Each layer is initialised with the output
dimensionality the previous layer returned; a layer that rejects its input dimension
makes the network's `Initialize` fail with `ConfigurationError`. -/
def wireLayers {P : Type} [Zero P] (draw : Nat → LayerSpec → Int → P) :
    Nat → Int → List LayerSpec → Except EngineError (List (Layer P))
  | _, _, [] => .ok []
  | index, dim, spec :: rest =>
    match spec.Initialize draw index dim with
    | .error _ => .error .ConfigurationError
    | .ok (layer, outputSize) =>
      match wireLayers draw (index + 1) outputSize rest with
      | .error e => .error e
      | .ok layers => .ok (layer :: layers)

/-- Modelled from the spec: the network operation `Initialize(inputDim, ...layerSpecs)`.  It
fails with `ConfigurationError` if the layer list is empty or any layer rejects its
input dimension; the first layer receives `inputDim`. -/
def Perceptron.Initialize {P α : Type} [Zero P] (draw : Nat → LayerSpec → Int → P)
    (mlp : Perceptron P α) (inputDim : Int) (layerSpecs : List LayerSpec) :
    Except EngineError (Perceptron P α) :=
  match layerSpecs with
  | [] => .error .ConfigurationError
  | _ :: _ =>
    match wireLayers draw 0 inputDim layerSpecs with
    | .error e => .error e
    | .ok layers => .ok { mlp with layers := layers }

/-- The dimension the layer that follows `layerSpecs` is initialised with when the
first layer receives `inputDim` and no layer has rejected. -/
def fedDimension (inputDim : Int) (layerSpecs : List LayerSpec) : Int :=
  layerSpecs.foldl (fun dim spec => spec.outputWidth dim) inputDim

/-- The invariant of the data model: the output dimensionality of each layer is the
input dimensionality of the next. -/
def Wired {P : Type} (layers : List (Layer P)) : Prop :=
  List.Chain' (fun a b => a.outputSize = b.inputSize) layers

/-- The first argument of `mlp.Initialize(2, ...)` in `main`. -/
def mainInputDim : Int := 2

/-- The layer list `main` passes to `Initialize`. -/
def mainLayers : List LayerSpec :=
  [.LinearLayer 7, .TanhLayer, .LinearLayer 3, .SoftmaxLayer]

/-- The assignment `mlp.BatchSize = 32` of `main`. -/
def mainBatchSize : Int := 32

/-- The assignment `mlp.LearningRate = 1` of `main`. -/
def mainLearningRate {α : Type} [One α] : α := 1

/-- The first three statements of `main`: the empty perceptron is initialised with input
dimension 2 and the four layers, then the two hyperparameters are assigned. -/
def mainNetwork {P α : Type} [Zero P] [Zero α] [One α] (draw : Nat → LayerSpec → Int → P) :
    Except EngineError (Perceptron P α) :=
  match Perceptron.Initialize draw (Perceptron.empty : Perceptron P α) mainInputDim mainLayers with
  | .error e => .error e
  | .ok mlp => .ok { mlp with BatchSize := mainBatchSize, LearningRate := mainLearningRate }

/-! ### The trainer loop, as far as the specification describes it -/

/-- Modelled from the spec: only Linear layers own parameters; Tanh and Softmax are
stateless. -/
def LayerSpec.parameterized : LayerSpec → Bool
  | .LinearLayer _ => true
  | .TanhLayer => false
  | .SoftmaxLayer => false

/-- Modelled from the spec: what the layer variants and the loss compute.  `forward` maps
the parameters and an input to the output; `backward` maps the parameters, the input
recorded by the forward pass and the gradient at the output to the parameter gradient
and the gradient at the input; `lossDerivative` maps a prediction and a target to the
gradient at the output layer (`prediction - target` under softmax with cross-entropy).
The trainer is written against these, whatever they are. -/
structure LayerSemantics (α P : Type) where
  forward : LayerSpec → P → List α → List α
  backward : LayerSpec → P → List α → List α → P × List α
  lossDerivative : List α → List α → List α

section Trainer
variable {α P : Type} [LinearOrderedField α] [AddCommGroup P] [Module α P]

/-- Modelled from the spec: the layer operation `Forward`, a pure function of the input
and the current parameters. -/
def Layer.Forward (sem : LayerSemantics α P) (layer : Layer P) (input : List α) : List α :=
  sem.forward layer.spec layer.params input

/-- Modelled from the spec: the layer operation `Backward`.  A parameterized layer adds
its parameter gradient to its accumulator (summed, not overwritten); every layer
returns the gradient to propagate to the previous layer.  The parameters are not
touched. -/
def Layer.Backward (sem : LayerSemantics α P) (layer : Layer P) (input outputGradient : List α) :
    Layer P × List α :=
  let r := sem.backward layer.spec layer.params input outputGradient
  if layer.spec.parameterized then
    ({ layer with accumulated := layer.accumulated + r.1 }, r.2)
  else
    (layer, r.2)

/-- Modelled from the spec: the layer operation `ApplyGradients(learningRate, batchSize)`.
A parameterized layer subtracts `learningRate * (accumulatedGradient / batchSize)` from
its parameters and clears the accumulator; for a stateless layer it is a no-op. -/
def Layer.ApplyGradients (layer : Layer P) (learningRate : α) (batchSize : Nat) : Layer P :=
  if layer.spec.parameterized then
    { layer with
      params := layer.params - learningRate • ((batchSize : α)⁻¹ • layer.accumulated),
      accumulated := 0 }
  else
    layer

/-- Modelled from the spec: one training example.  `Forward` runs through the layers in
order, the loss gradient is taken at the output layer, and `Backward` runs through the
layers in reverse order, each layer receiving the gradient its successor returned.
The result is the layers with their accumulators updated and the gradient at the
network's input. -/
def trainExample (sem : LayerSemantics α P) (target : List α) :
    List (Layer P) → List α → List (Layer P) × List α
  | [], prediction => ([], sem.lossDerivative prediction target)
  | layer :: rest, input =>
    let output := layer.Forward sem input
    let r := trainExample sem target rest output
    let b := layer.Backward sem input r.2
    (b.1 :: r.1, b.2)

/-- Modelled from the spec: the first half of a batch, `Forward` then `Backward` for every
example, the gradients accumulating layer by layer. -/
def accumulateBatch (sem : LayerSemantics α P) (layers : List (Layer P))
    (batch : List (DataPoint α)) : List (Layer P) :=
  batch.foldl (fun ls e => (trainExample sem e.Output ls e.Input).1) layers

/-- Modelled from the spec: one batch.  After the examples of the batch,
`ApplyGradients(learningRate, batchSize)` is called on every layer, with the number of
examples of the batch. -/
def trainBatch (sem : LayerSemantics α P) (learningRate : α) (layers : List (Layer P))
    (batch : List (DataPoint α)) : List (Layer P) :=
  (accumulateBatch sem layers batch).map (fun l => l.ApplyGradients learningRate batch.length)

end Trainer

/-- Modelled from the spec: the partition of the examples of an epoch into consecutive
batches of size `batchSize`, the last of which may be shorter. -/
def batches {β : Type} (batchSize : Nat) (examples : List β) : List (List β) :=
  if h : batchSize = 0 ∨ examples.length = 0 then
    []
  else
    examples.take batchSize :: batches batchSize (examples.drop batchSize)
termination_by examples.length
decreasing_by
  simp only [List.length_drop]
  omega

/-- Modelled from the spec: the three states of the trainer loop. -/
inductive TrainerState
  | Running
  | BudgetExpired
  | Done
deriving DecidableEq, Repr

section TrainerLoop
variable {α P : Type} [LinearOrderedField α] [AddCommGroup P] [Module α P]

/-- Modelled from the spec: the batches of one epoch.  The elapsed time is read after each
batch (`clock n` is the elapsed time after the `n`-th batch of the run); the state
becomes `BudgetExpired` as soon as it has reached the budget, and the batches left
in the epoch are not run. -/
def trainBatches (sem : LayerSemantics α P) (learningRate : α) (clock : Nat → Nat)
    (timeBudget : Nat) :
    List (List (DataPoint α)) → List (Layer P) × Nat → (List (Layer P) × Nat) × TrainerState
  | [], st => (st, .Running)
  | batch :: rest, (layers, done) =>
    let layers1 := trainBatch sem learningRate layers batch
    if timeBudget ≤ clock (done + 1) then
      ((layers1, done + 1), .BudgetExpired)
    else
      trainBatches sem learningRate clock timeBudget rest (layers1, done + 1)

/-- Modelled from the spec: the epochs.  Each epoch shuffles the training examples into a
new order and runs its batches; the loop stops when the budget has expired.  The
fuel bounds the number of epochs: `none` means the clock had not reached the budget
when it ran out. -/
def trainEpochs (sem : LayerSemantics α P) (learningRate : α) (clock : Nat → Nat)
    (timeBudget : Nat) (rnd : Nat → Nat → Nat) (batchSize : Nat)
    (trainingExamples : List (DataPoint α)) :
    Nat → Nat → List (Layer P) × Nat → Option (List (Layer P))
  | 0, _, _ => none
  | fuel + 1, epoch, st =>
    match Shuffle (rnd epoch) trainingExamples.length swapCallback trainingExamples with
    | none => none
    | some shuffled =>
      match trainBatches sem learningRate clock timeBudget (batches batchSize shuffled) st with
      | (st1, .Running) =>
        trainEpochs sem learningRate clock timeBudget rnd batchSize trainingExamples
          fuel (epoch + 1) st1
      | (st1, _) => some st1.1

/-- Modelled from the spec: `Train(trainingExamples, testingExamples, timeBudget)`.  It fails
with `ConfigurationError` if `trainingExamples` is empty, `BatchSize ≤ 0` or
`LearningRate ≤ 0`; otherwise it runs the trainer loop.  The held-out examples are
scored for diagnosis only and do not affect the result. -/
def Perceptron.Train (sem : LayerSemantics α P) (clock : Nat → Nat) (rnd : Nat → Nat → Nat)
    (fuel : Nat) (mlp : Perceptron P α) (trainingExamples testingExamples : List (DataPoint α))
    (timeBudget : Nat) : Except EngineError (Option (Perceptron P α)) :=
  if trainingExamples.length = 0 ∨ mlp.BatchSize ≤ 0 ∨ mlp.LearningRate ≤ 0 then
    .error .ConfigurationError
  else
    .ok ((trainEpochs sem mlp.LearningRate clock timeBudget rnd mlp.BatchSize.toNat
            trainingExamples fuel 0 (mlp.layers, 0)).map
          (fun layers => { mlp with layers := layers }))

end TrainerLoop

/-- The time budget `10*time.Second` that `main` passes to `Train`, in nanoseconds. -/
def mainTimeBudget : Nat := 10 * 1000000000

/-- The function `main` of `main.go` up to its call of `Train`: the network is built, the
dataset is generated and sliced, and `Train` is called with the first 120 examples, the
remaining ones and the time budget.  The result is `none` when the generation loop runs
out of fuel or a slice is out of bounds, and the result of `Train` otherwise.  The calls
of `Save` and `PrettyPrint` that follow write files and are not part of the model. -/
def main {α P : Type} [LinearOrderedField α] [AddCommGroup P] [Module α P]
    (sin cos : α → α) (rnd : Nat → Nat) (fuel : Nat) (draw : Nat → LayerSpec → Int → P)
    (sem : LayerSemantics α P) (clock : Nat → Nat) (rndTrain : Nat → Nat → Nat)
    (fuelTrain : Nat) : Option (Except EngineError (Option (Perceptron P α))) :=
  match mainNetwork (α := α) draw with
  | .error e => some (.error e)
  | .ok mlp =>
    match GetSpiralDataset sin cos rnd fuel with
    | none => none
    | some data =>
      match mainPartition data with
      | none => none
      | some (trainingData, testingData) =>
        some (mlp.Train sem clock rndTrain fuelTrain trainingData testingData mainTimeBudget)

/-! ### Softmax and the cross-entropy loss -/

section SoftmaxDefs
variable {α : Type} [LinearOrderedField α]

/-- Modelled from the spec: the Softmax formula `output_i = exp(input_i) / Σ_j exp(input_j)`;
the exponential is a parameter. -/
def softmax (exp : α → α) (z : List α) : List α :=
  z.map (fun zi => exp zi / (z.map exp).sum)

/-- Modelled from the spec: the Softmax layer's `Forward`, numerically stabilized by
subtracting the maximal input before exponentiating. -/
def SoftmaxForward (exp : α → α) (z : List α) : List α :=
  let m := z.foldl max (z.headD 0)
  softmax exp (z.map (fun zi => zi - m))

/-- Modelled from the spec: the cross-entropy loss Softmax is paired with,
`-Σ_i t_i * log(p_i)` for a prediction `p` and a target `t`; the logarithm is a
parameter. -/
def crossEntropy (log : α → α) (prediction target : List α) : α :=
  -(List.zipWith (fun t p => t * log p) target prediction).sum

/-- Modelled from the spec: the simplified gradient path of Softmax paired with the
cross-entropy loss, `output - target`. -/
def softmaxCrossEntropyGradient (output target : List α) : List α :=
  List.zipWith (fun o t => o - t) output target

/-- A one-hot vector: 1 at one position `c`, 0 elsewhere. -/
def OneHot (t : List α) : Prop :=
  ∃ c, c < t.length ∧ t = (List.range t.length).map (fun i => if i = c then 1 else 0)

instance OneHot.decidable (t : List α) : Decidable (OneHot t) := by
  unfold OneHot
  infer_instance

end SoftmaxDefs

/-! ### A small concrete run of the trainer -/

/-- A concrete choice of layer semantics over `ℚ` with one parameter per layer: a layer
scales its input by its parameter, the parameter gradient is the inner product of the
output gradient and the input, and the loss gradient is `prediction - target`. -/
def sampleSemantics : LayerSemantics ℚ ℚ where
  forward := fun _ p x => x.map (fun v => p * v)
  backward := fun _ p x g =>
    ((List.zipWith (fun a b => a * b) g x).sum, g.map (fun v => p * v))
  lossDerivative := fun p t => List.zipWith (fun a b => a - b) p t

section AnyArithmetic
variable {α : Type} [Add α] [Sub α] [Mul α] [LT α] [DecidableRel (fun a b : α => a < b)]
  [OfScientific α] [OfNat α 0] [OfNat α 1] [OfNat α 3]

theorem length_flatMap_spiralPoints (sin cos : α → α) (rs : List α) :
    (rs.flatMap (spiralPoints sin cos)).length = 3 * rs.length := by
  induction rs with
  | nil => simp
  | cons r rs ih =>
    simp only [List.flatMap_cons, List.length_append, ih, List.length_cons]
    simp [spiralPoints]
    omega

theorem spiralPoints_oneHot (sin cos : α → α) (r : α) (p : DataPoint α)
    (hp : p ∈ spiralPoints sin cos r) :
    p.Output = [1, 0, 0] ∨ p.Output = [0, 1, 0] ∨ p.Output = [0, 0, 1] := by
  simp only [spiralPoints, List.mem_cons, List.mem_singleton, List.not_mem_nil, or_false] at hp
  rcases hp with rfl | rfl | rfl
  · exact Or.inl rfl
  · exact Or.inr (Or.inl rfl)
  · exact Or.inr (Or.inr rfl)

/-- Each radius contributes exactly one example of each of the three labels. -/
theorem countP_label_flatMap [DecidableEq α] (h10 : (1 : α) ≠ 0) (sin cos : α → α)
    (rs : List α) :
    (rs.flatMap (spiralPoints sin cos)).countP (fun p => decide (p.Output = [1, 0, 0]))
        = rs.length ∧
    (rs.flatMap (spiralPoints sin cos)).countP (fun p => decide (p.Output = [0, 1, 0]))
        = rs.length ∧
    (rs.flatMap (spiralPoints sin cos)).countP (fun p => decide (p.Output = [0, 0, 1]))
        = rs.length := by
  have h01 : (0 : α) ≠ 1 := fun h => h10 h.symm
  induction rs with
  | nil => simp
  | cons r rs ih =>
    obtain ⟨h1, h2, h3⟩ := ih
    simp only [List.flatMap_cons, List.countP_append, h1, h2, h3, List.length_cons]
    refine ⟨?_, ?_, ?_⟩ <;> simp [spiralPoints, List.countP_cons, h10, h01] <;> omega

/-- The generation loop appends, for each radius it visits in turn, the three points of
that radius. -/
theorem spiralLoop_eq_loopRadii (sin cos : α → α) (fuel : Nat) :
    ∀ (r : α) (acc : List (DataPoint α)),
      spiralLoop sin cos fuel r acc
        = (loopRadii fuel r).map (fun rs => acc ++ rs.flatMap (spiralPoints sin cos)) := by
  induction fuel with
  | zero => intro r acc; rfl
  | succ fuel ih =>
    intro r acc
    by_cases h : r < 3
    · simp only [spiralLoop, loopRadii, if_pos h, ih, Option.map_map]
      congr 1
      funext rs
      simp [List.append_assoc]
    · simp only [spiralLoop, loopRadii, if_neg h]
      simp

/-- More fuel does not change what the loop returns. -/
theorem loopRadii_mono (fuel : Nat) :
    ∀ (r : α) (rs : List α), loopRadii fuel r = some rs →
      ∀ more, loopRadii (fuel + more) r = some rs := by
  induction fuel with
  | zero => intro r rs h; cases h
  | succ fuel ih =>
    intro r rs h more
    have hadd : fuel + 1 + more = (fuel + more) + 1 := by omega
    rw [hadd]
    by_cases hlt : r < 3
    · simp only [loopRadii, if_pos hlt] at h ⊢
      cases hrest : loopRadii fuel (r + 0.05) with
      | none => rw [hrest] at h; cases h
      | some rest =>
        rw [hrest] at h
        rw [ih _ _ hrest more]
        exact h
    · simp only [loopRadii, if_neg hlt] at h ⊢
      exact h

end AnyArithmetic

section LoopLemmas
variable {α : Type} [LinearOrderedField α]

theorem spiralRadius_zero : (spiralRadius 0 : α) = 0.2 := by
  simp [spiralRadius]

theorem spiralRadius_succ (k : Nat) : (spiralRadius k : α) + 0.05 = spiralRadius (k + 1) := by
  unfold spiralRadius
  push_cast
  ring

theorem spiralRadius_lt_three (k : Nat) : (spiralRadius k : α) < 3 ↔ k < 56 := by
  unfold spiralRadius
  constructor
  · intro h
    have h2 : (k : α) < 56 := by
      norm_num at h
      linarith
    exact_mod_cast h2
  · intro h
    have h2 : (k : α) < 56 := by exact_mod_cast h
    norm_num
    linarith

theorem spiralRadius_bounds (k : Nat) (hk : k < 56) :
    (0.2 : α) ≤ spiralRadius k ∧ (spiralRadius k : α) < 3 := by
  refine ⟨?_, (spiralRadius_lt_three k).2 hk⟩
  unfold spiralRadius
  have h0 : (0 : α) ≤ (k : α) := Nat.cast_nonneg k
  norm_num

theorem spiralRadius_injective : Function.Injective (spiralRadius : Nat → α) := by
  intro a b h
  unfold spiralRadius at h
  have h2 : (a : α) = (b : α) := by
    have h3 : (0.05 : α) * (a : α) = 0.05 * (b : α) := add_left_cancel h
    have h4 : (0.05 : α) ≠ 0 := by norm_num
    exact mul_left_cancel₀ h4 h3
  exact_mod_cast h2

/-- Started in iteration `k` with `m` iterations left and more than `m` units of fuel,
the loop appends the points of the radii `k, ..., k + m - 1` and stops. -/
theorem spiralLoop_from (sin cos : α → α) (m : Nat) :
    ∀ (k fuel : Nat) (acc : List (DataPoint α)), k + m = 56 → m < fuel →
      spiralLoop sin cos fuel (spiralRadius k) acc
        = some (acc ++ ((List.range' k m).map spiralRadius).flatMap (spiralPoints sin cos)) := by
  induction m with
  | zero =>
    intro k fuel acc hk hf
    obtain ⟨f, rfl⟩ : ∃ f, fuel = f + 1 := ⟨fuel - 1, by omega⟩
    have hge : ¬ (spiralRadius k : α) < 3 := by
      rw [spiralRadius_lt_three]; omega
    simp [spiralLoop, hge]
  | succ m ih =>
    intro k fuel acc hk hf
    obtain ⟨f, rfl⟩ : ∃ f, fuel = f + 1 := ⟨fuel - 1, by omega⟩
    have hlt : (spiralRadius k : α) < 3 := by
      rw [spiralRadius_lt_three]; omega
    simp only [spiralLoop, hlt, if_true]
    rw [spiralRadius_succ, ih (k + 1) f _ (by omega) (by omega)]
    simp [List.range'_succ, List.append_assoc]

/-- With exact arithmetic and at least 57 tests of the loop condition, the generation
loop returns the points of the 56 radii. -/
theorem spiralLoop_eq (sin cos : α → α) (fuel : Nat) (hfuel : 57 ≤ fuel) :
    spiralLoop sin cos fuel 0.2 [] = some (generatedPoints sin cos) := by
  have h := spiralLoop_from sin cos 56 0 fuel [] (by omega) (by omega)
  rw [spiralRadius_zero] at h
  rw [h]
  simp [generatedPoints, spiralRadii, List.range_eq_range']

theorem length_generatedPoints (sin cos : α → α) :
    (generatedPoints sin cos).length = 168 := by
  rw [generatedPoints, length_flatMap_spiralPoints]
  simp [spiralRadii]

theorem mem_generatedPoints (sin cos : α → α) (p : DataPoint α) :
    p ∈ generatedPoints sin cos ↔
      ∃ k, k < 56 ∧ p ∈ spiralPoints sin cos (spiralRadius k) := by
  simp [generatedPoints, spiralRadii]

end LoopLemmas

section ShuffleLemmas
variable {β : Type}

theorem swapCallback_isSome (points : List β) (i j : Nat)
    (hi : i < points.length) (hj : j < points.length) :
    ∃ points1, swapCallback points i j = some points1 := by
  unfold swapCallback
  rw [dif_pos ⟨hi, hj⟩]
  exact ⟨_, rfl⟩

/-- The swap callback only exchanges two elements: what it returns is a permutation
of what it was given. -/
theorem swapCallback_perm (points points1 : List β) (i j : Nat)
    (h : swapCallback points i j = some points1) : points1.Perm points := by
  classical
  unfold swapCallback at h
  split_ifs at h with hr
  obtain ⟨hi, hj⟩ := hr
  simp only [Option.some.injEq] at h
  subst h
  rw [List.perm_iff_count]
  intro a
  have hj1 : j < (points.set i (points.get ⟨j, hj⟩)).length := by simpa using hj
  rw [List.count_set _ _ _ _ hj1, List.count_set _ _ _ _ hi]
  simp only [List.get_eq_getElem, List.getElem_set, beq_iff_eq]
  have hci : (if points[i] = a then 1 else 0) ≤ points.count a := by
    split_ifs with hia
    · exact List.count_pos_iff.2 (hia ▸ List.getElem_mem hi)
    · exact Nat.zero_le _
  have hcj : (if points[j] = a then 1 else 0) ≤ points.count a := by
    split_ifs with hja
    · exact List.count_pos_iff.2 (hja ▸ List.getElem_mem hj)
    · exact Nat.zero_le _
  by_cases hij : i = j
  · subst hij
    simp only [if_true]
    omega
  · simp only [hij, if_false]
    split_ifs at hci hcj ⊢ <;> omega

theorem shuffleLoop_perm (rnd : Nat → Nat) (i : Nat) :
    ∀ points : List β, i < points.length ∨ i = 0 →
      ∃ points1, shuffleLoop rnd swapCallback i points = some points1 ∧
        points1.Perm points := by
  induction i with
  | zero => intro points _; exact ⟨points, rfl, List.Perm.refl _⟩
  | succ i ih =>
    intro points hi
    have hi1 : i + 1 < points.length := by omega
    have hj : rnd (i + 1) % (i + 2) < points.length := by
      have := Nat.mod_lt (rnd (i + 1)) (show 0 < i + 2 by omega)
      omega
    obtain ⟨p1, hp1⟩ := swapCallback_isSome points (i + 1) _ hi1 hj
    have hperm1 := swapCallback_perm _ _ _ _ hp1
    obtain ⟨p2, hp2, hperm2⟩ := ih p1 (Or.inl (by rw [hperm1.length_eq]; omega))
    refine ⟨p2, ?_, hperm2.trans hperm1⟩
    simp only [shuffleLoop, hp1]
    exact hp2

/-- For every random source, `rand.Shuffle(len(points), swap)` with the swap callback of
`GetSpiralDataset` returns, and returns a permutation. -/
theorem Shuffle_perm (rnd : Nat → Nat) (points : List β) :
    ∃ points1, Shuffle rnd points.length swapCallback points = some points1 ∧
      points1.Perm points := by
  unfold Shuffle
  apply shuffleLoop_perm
  omega

end ShuffleLemmas

/-- With exact arithmetic, `GetSpiralDataset` returns a permutation of the points of the
56 radii, whatever the random source. -/
theorem GetSpiralDataset_perm {α : Type} [LinearOrderedField α] (sin cos : α → α)
    (rnd : Nat → Nat) (fuel : Nat) (hfuel : 57 ≤ fuel) :
    ∃ data, GetSpiralDataset sin cos rnd fuel = some data ∧
      data.Perm (generatedPoints sin cos) := by
  obtain ⟨data, h1, h2⟩ := Shuffle_perm rnd (generatedPoints sin cos)
  refine ⟨data, ?_, h2⟩
  simp only [GetSpiralDataset, spiralLoop_eq sin cos fuel hfuel]
  exact h1

/-! ## Part 3: the dataset `main` trains on -/

/-- With exact arithmetic `GetSpiralDataset` returns 168 examples, and the slices taken by
`main` are then in bounds. -/
theorem GetSpiralDataset_partition {α : Type} [LinearOrderedField α] (sin cos : α → α)
    (rnd : Nat → Nat) (fuel : Nat) (hfuel : 57 ≤ fuel) :
    ∃ data, GetSpiralDataset sin cos rnd fuel = some data ∧
      data.Perm (generatedPoints sin cos) ∧ data.length = 168 ∧
      mainPartition data = some (data.take 120, data.drop 120) := by
  obtain ⟨data, hdata, hperm⟩ := GetSpiralDataset_perm sin cos rnd fuel hfuel
  have hlen : data.length = 168 := by
    rw [hperm.length_eq, length_generatedPoints]
  exact ⟨data, hdata, hperm, hlen, by simp [mainPartition, hlen]⟩

/-! ### The loop as the program runs it, in `float64` -/

set_option maxRecDepth 1000000 in
/-- In `float64` the loop visits 57 radii: after 56 additions of `0.05` the loop variable is
`2.9999999999999973`, still below 3, and the next value, `3.049999999999997`, is not. -/
theorem loopRadii_float64 :
    (loopRadii 58 (0.2 : Float64)).map (fun rs => (rs.length, rs.getLast?))
        = some (57, some 2.9999999999999973) ∧
    ((2.9999999999999973 : Float64) < 3 ∧ (2.9999999999999973 : Float64) + 0.05
        = 3.049999999999997 ∧ ¬ (3.049999999999997 : Float64) < 3) ∧
    (2.9999999999999973 : Float64) = Float64.finite false 6755399441055738 (-51) := by
  decide

/-- What `GetSpiralDataset` returns in `float64`: a permutation of the points of the 57
radii, 171 examples. -/
theorem GetSpiralDataset_float64 (sin cos : Float64 → Float64) (rnd : Nat → Nat) (fuel : Nat)
    (hfuel : 58 ≤ fuel) :
    ∃ radii data,
      loopRadii fuel (0.2 : Float64) = some radii ∧ radii.length = 57 ∧
      radii.getLast? = some 2.9999999999999973 ∧
      spiralLoop sin cos fuel 0.2 [] = some (radii.flatMap (spiralPoints sin cos)) ∧
      GetSpiralDataset sin cos rnd fuel = some data ∧
      data.Perm (radii.flatMap (spiralPoints sin cos)) ∧ data.length = 171 := by
  have h58 := loopRadii_float64.1
  cases hr : loopRadii 58 (0.2 : Float64) with
  | none => rw [hr] at h58; cases h58
  | some radii =>
    rw [hr] at h58
    simp only [Option.map_some', Option.some.injEq, Prod.mk.injEq] at h58
    obtain ⟨hlen, hlast⟩ := h58
    have hfuel2 : loopRadii fuel (0.2 : Float64) = some radii := by
      have := loopRadii_mono 58 (0.2 : Float64) radii hr (fuel - 58)
      rwa [show 58 + (fuel - 58) = fuel by omega] at this
    have hloop : spiralLoop sin cos fuel 0.2 []
        = some (radii.flatMap (spiralPoints sin cos)) := by
      rw [spiralLoop_eq_loopRadii, hfuel2]
      rfl
    obtain ⟨data, hshuffle, hperm⟩ := Shuffle_perm rnd (radii.flatMap (spiralPoints sin cos))
    refine ⟨radii, data, hfuel2, hlen, hlast, hloop, ?_, hperm, ?_⟩
    · simp only [GetSpiralDataset, hloop]
      exact hshuffle
    · rw [hperm.length_eq, length_flatMap_spiralPoints, hlen]

/-- C4, the claim as stated fails: the program computes the loop variable in `float64`, and
there `GetSpiralDataset` returns 171 examples, not 168, and `data[120:]` holds 51
examples, not 48. -/
theorem main_partition_not_168 :
    ∃ data trainingData testingData,
      GetSpiralDataset (α := Float64) (fun x => x) (fun x => x) (fun _ => 0) 58 = some data ∧
      mainPartition data = some (trainingData, testingData) ∧
      data.length = 171 ∧ data.length ≠ 168 ∧
      testingData.length = 51 ∧ testingData.length ≠ 48 := by
  obtain ⟨radii, data, _, _, _, _, hdata, _, hlen⟩ :=
    GetSpiralDataset_float64 (fun x => x) (fun x => x) (fun _ => 0) 58 (Nat.le_refl 58)
  have h2 : (data.drop 120).length = 51 := by
    rw [List.length_drop, hlen]
  refine ⟨data, data.take 120, data.drop 120, hdata, ?_, hlen, ?_, h2, ?_⟩
  · simp [mainPartition, hlen]
  · rw [hlen]; decide
  · rw [h2]; decide

/-- C4, as amended: with the loop variable computed in `float64`, as the program does,
`GetSpiralDataset` returns 171 examples (57 radii, the last one `2.9999999999999973`,
three examples each), so the slices `data[:120]` and `data[120:]` taken by `main` stay in
bounds, hold the first 120 and the remaining 51 examples, are both non-empty, and
together are `data` again: the example at position `i` is in the training data when
`i < 120` and in the held-out data at position `i - 120` otherwise. -/
theorem main_partition_float64 (sin cos : Float64 → Float64) (rnd : Nat → Nat) (fuel : Nat)
    (hfuel : 58 ≤ fuel) :
    ∃ radii data trainingData testingData,
      loopRadii fuel (0.2 : Float64) = some radii ∧ radii.length = 57 ∧
      radii.getLast? = some 2.9999999999999973 ∧
      GetSpiralDataset sin cos rnd fuel = some data ∧ data.length = 171 ∧
      mainPartition data = some (trainingData, testingData) ∧
      trainingData = data.take 120 ∧ testingData = data.drop 120 ∧
      trainingData.length = 120 ∧ testingData.length = 51 ∧
      trainingData ≠ [] ∧ testingData ≠ [] ∧
      trainingData ++ testingData = data ∧
      (∀ i, i < 120 → trainingData[i]? = data[i]?) ∧
      (∀ i, testingData[i]? = data[120 + i]?) := by
  obtain ⟨radii, data, hradii, hrlen, hlast, _, hdata, _, hlen⟩ :=
    GetSpiralDataset_float64 sin cos rnd fuel hfuel
  have h1 : (data.take 120).length = 120 := by
    rw [List.length_take, hlen]; rfl
  have h2 : (data.drop 120).length = 51 := by
    rw [List.length_drop, hlen]
  refine ⟨radii, data, data.take 120, data.drop 120, hradii, hrlen, hlast, hdata, hlen, ?_,
    rfl, rfl, h1, h2, ?_, ?_, List.take_append_drop 120 data, ?_, ?_⟩
  · simp [mainPartition, hlen]
  · intro h
    rw [h] at h1
    simp at h1
  · intro h
    rw [h] at h2
    simp at h2
  · intro i hi
    rw [List.getElem?_take, if_pos hi]
  · intro i
    rw [List.getElem?_drop]

/-- C4, at a concrete run in `float64`: 58 tests of the loop condition, a random source that
always draws index 0. -/
theorem main_partition_float64_witness :
    58 ≤ 58 ∧
    ∃ radii data trainingData testingData,
      loopRadii 58 (0.2 : Float64) = some radii ∧ radii.length = 57 ∧
      radii.getLast? = some 2.9999999999999973 ∧
      GetSpiralDataset (α := Float64) (fun x => x) (fun x => x) (fun _ => 0) 58 = some data ∧
      data.length = 171 ∧
      mainPartition data = some (trainingData, testingData) ∧
      trainingData = data.take 120 ∧ testingData = data.drop 120 ∧
      trainingData.length = 120 ∧ testingData.length = 51 ∧
      trainingData ≠ [] ∧ testingData ≠ [] ∧
      trainingData ++ testingData = data ∧
      (∀ i, i < 120 → trainingData[i]? = data[i]?) ∧
      (∀ i, testingData[i]? = data[120 + i]?) :=
  ⟨Nat.le_refl 58, main_partition_float64 _ _ _ 58 (Nat.le_refl 58)⟩

/-- C9, the claim as stated fails: the program computes the loop variable in `float64`, and
there each label occurs 57 times in the returned list, not 56. -/
theorem label_count_not_56 :
    ∃ data,
      GetSpiralDataset (α := Float64) (fun x => x) (fun x => x) (fun i => i) 58 = some data ∧
      data.countP (fun p => decide (p.Output = [1, 0, 0])) = 57 ∧
      data.countP (fun p => decide (p.Output = [1, 0, 0])) ≠ 56 := by
  obtain ⟨radii, data, _, hrlen, _, _, hdata, hperm, _⟩ :=
    GetSpiralDataset_float64 (fun x => x) (fun x => x) (fun i => i) 58 (Nat.le_refl 58)
  have hc := (countP_label_flatMap (α := Float64) (by decide) (fun x => x) (fun x => x)
    radii).1
  have h57 : data.countP (fun p => decide (p.Output = [1, 0, 0])) = 57 := by
    rw [hperm.countP_eq, hc, hrlen]
  refine ⟨data, hdata, h57, ?_⟩
  rw [h57]
  decide

/-- C9, as amended: for every outcome of the random shuffle, the list `GetSpiralDataset`
returns is a permutation of the list built by the generation loop; its length is
unchanged, every `Output` is one of the three one-hot vectors, and each label occurs
once per radius, 57 times with the radius computed in `float64`, as the program does. -/
theorem GetSpiralDataset_is_permutation_float64 (sin cos : Float64 → Float64)
    (rnd : Nat → Nat) (fuel : Nat) (hfuel : 58 ≤ fuel) :
    ∃ points data,
      spiralLoop sin cos fuel (0.2 : Float64) [] = some points ∧
      GetSpiralDataset sin cos rnd fuel = some data ∧
      data.Perm points ∧ data.length = points.length ∧
      (∀ p ∈ data, p.Output = [1, 0, 0] ∨ p.Output = [0, 1, 0] ∨ p.Output = [0, 0, 1]) ∧
      data.countP (fun p => decide (p.Output = [1, 0, 0])) = 57 ∧
      data.countP (fun p => decide (p.Output = [0, 1, 0])) = 57 ∧
      data.countP (fun p => decide (p.Output = [0, 0, 1])) = 57 := by
  obtain ⟨radii, data, _, hrlen, _, hloop, hdata, hperm, _⟩ :=
    GetSpiralDataset_float64 sin cos rnd fuel hfuel
  obtain ⟨c1, c2, c3⟩ := countP_label_flatMap (α := Float64) (by decide) sin cos radii
  rw [hrlen] at c1 c2 c3
  refine ⟨radii.flatMap (spiralPoints sin cos), data, hloop, hdata, hperm, hperm.length_eq,
    ?_, ?_, ?_, ?_⟩
  · intro p hp
    obtain ⟨r, _, hr⟩ := List.mem_flatMap.1 (hperm.subset hp)
    exact spiralPoints_oneHot sin cos r p hr
  · rw [hperm.countP_eq]; exact c1
  · rw [hperm.countP_eq]; exact c2
  · rw [hperm.countP_eq]; exact c3

/-- C9, at a concrete run in `float64`: 60 tests of the loop condition and a random source
that always draws the last index. -/
theorem GetSpiralDataset_is_permutation_float64_witness :
    58 ≤ 60 ∧
    ∃ points data,
      spiralLoop (α := Float64) (fun x => x) (fun x => x) 60 0.2 [] = some points ∧
      GetSpiralDataset (α := Float64) (fun x => x) (fun x => x) (fun i => i) 60 = some data ∧
      data.Perm points ∧ data.length = points.length ∧
      (∀ p ∈ data, p.Output = [1, 0, 0] ∨ p.Output = [0, 1, 0] ∨ p.Output = [0, 0, 1]) ∧
      data.countP (fun p => decide (p.Output = [1, 0, 0])) = 57 ∧
      data.countP (fun p => decide (p.Output = [0, 1, 0])) = 57 ∧
      data.countP (fun p => decide (p.Output = [0, 0, 1])) = 57 :=
  ⟨by decide, GetSpiralDataset_is_permutation_float64 _ _ _ 60 (by decide)⟩

/-! ## Part 4: wiring the layers -/

section Wiring
variable {P : Type} [Zero P]

theorem fedDimension_cons (dim : Int) (spec : LayerSpec) (rest : List LayerSpec) :
    fedDimension dim (spec :: rest) = fedDimension (spec.outputWidth dim) rest := rfl

theorem LayerSpec.Initialize_of_pos (draw : Nat → LayerSpec → Int → P) (index : Nat)
    (spec : LayerSpec) (dim : Int) (h : 0 < dim) :
    spec.Initialize draw index dim
      = .ok ({ spec := spec, inputSize := dim, outputSize := spec.outputWidth dim,
               params := draw index spec dim, accumulated := 0 }, spec.outputWidth dim) := by
  unfold LayerSpec.Initialize
  rw [if_neg (by omega)]

theorem LayerSpec.Initialize_of_nonpos (draw : Nat → LayerSpec → Int → P) (index : Nat)
    (spec : LayerSpec) (dim : Int) (h : dim ≤ 0) :
    spec.Initialize draw index dim = .error .DimensionError := by
  unfold LayerSpec.Initialize
  rw [if_pos h]

theorem LayerSpec.Initialize_error_iff (draw : Nat → LayerSpec → Int → P) (index : Nat)
    (spec : LayerSpec) (dim : Int) :
    spec.Initialize draw index dim = .error .DimensionError ↔ dim ≤ 0 := by
  constructor
  · intro h
    by_contra hpos
    rw [LayerSpec.Initialize_of_pos draw index spec dim (by omega)] at h
    cases h
  · exact LayerSpec.Initialize_of_nonpos draw index spec dim

/-- Wiring never fails with anything but `ConfigurationError`. -/
theorem wireLayers_error (draw : Nat → LayerSpec → Int → P) (specs : List LayerSpec) :
    ∀ (index : Nat) (dim : Int) (e : EngineError),
      wireLayers draw index dim specs = .error e → e = .ConfigurationError := by
  induction specs with
  | nil => intro index dim e h; cases h
  | cons spec rest ih =>
    intro index dim e h
    by_cases hdim : 0 < dim
    · simp only [wireLayers, LayerSpec.Initialize_of_pos draw index spec dim hdim] at h
      cases hrest : wireLayers draw (index + 1) (spec.outputWidth dim) rest with
      | error e1 =>
        rw [hrest] at h
        cases h
        exact ih _ _ _ hrest
      | ok layers =>
        rw [hrest] at h
        cases h
    · simp only [wireLayers, LayerSpec.Initialize_of_nonpos draw index spec dim (by omega)] at h
      cases h
      rfl

/-- Wiring fails exactly when some layer is fed a non-positive dimension after all the
layers before it have accepted theirs. -/
theorem wireLayers_error_iff (draw : Nat → LayerSpec → Int → P) (specs : List LayerSpec) :
    ∀ (index : Nat) (dim : Int),
      wireLayers draw index dim specs = .error .ConfigurationError ↔
        ∃ i, i < specs.length ∧
          (∀ j, j < i → 0 < fedDimension dim (specs.take j)) ∧
          fedDimension dim (specs.take i) ≤ 0 := by
  induction specs with
  | nil =>
    intro index dim
    constructor
    · intro h; cases h
    · rintro ⟨i, hi, _⟩; simp at hi
  | cons spec rest ih =>
    intro index dim
    by_cases hdim : 0 < dim
    · have hstep : wireLayers draw index dim (spec :: rest) = .error .ConfigurationError ↔
          wireLayers draw (index + 1) (spec.outputWidth dim) rest
            = .error .ConfigurationError := by
        simp only [wireLayers, LayerSpec.Initialize_of_pos draw index spec dim hdim]
        cases hrest : wireLayers draw (index + 1) (spec.outputWidth dim) rest with
        | error e1 =>
          have := wireLayers_error draw rest _ _ _ hrest
          subst this
          simp
        | ok layers => simp
      rw [hstep, ih]
      constructor
      · rintro ⟨i, hi, hbefore, hrej⟩
        refine ⟨i + 1, by simpa using hi, ?_, ?_⟩
        · intro j hj
          cases j with
          | zero => simpa [fedDimension] using hdim
          | succ j =>
            rw [List.take_succ_cons, fedDimension_cons]
            exact hbefore j (by omega)
        · rw [List.take_succ_cons, fedDimension_cons]
          exact hrej
      · rintro ⟨i, hi, hbefore, hrej⟩
        cases i with
        | zero =>
          simp [fedDimension] at hrej
          omega
        | succ i =>
          refine ⟨i, by simpa using hi, ?_, ?_⟩
          · intro j hj
            have := hbefore (j + 1) (by omega)
            rwa [List.take_succ_cons, fedDimension_cons] at this
          · rwa [List.take_succ_cons, fedDimension_cons] at hrej
    · constructor
      · intro _
        refine ⟨0, by simp, ?_, ?_⟩
        · intro j hj; omega
        · simp only [List.take_zero, fedDimension, List.foldl_nil]
          omega
      · intro _
        simp only [wireLayers, LayerSpec.Initialize_of_nonpos draw index spec dim (by omega)]

/-- What wiring returns when every layer accepts its input dimension. -/
theorem wireLayers_ok (draw : Nat → LayerSpec → Int → P) (specs : List LayerSpec) :
    ∀ (index : Nat) (dim : Int), 0 < dim →
      (∀ n, LayerSpec.LinearLayer n ∈ specs.dropLast → 0 < n) →
      ∃ layers, wireLayers draw index dim specs = .ok layers ∧
        layers.map Layer.spec = specs ∧
        Wired layers ∧
        layers.head?.map Layer.inputSize = specs.head?.map (fun _ => dim) ∧
        layers.getLast?.map Layer.outputSize
          = specs.getLast?.map (fun _ => fedDimension dim specs) := by
  induction specs with
  | nil =>
    intro index dim _ _
    exact ⟨[], rfl, rfl, List.chain'_nil, rfl, rfl⟩
  | cons spec rest ih =>
    intro index dim hdim hwidth
    cases rest with
    | nil =>
      refine ⟨[{ spec := spec, inputSize := dim, outputSize := spec.outputWidth dim,
                 params := draw index spec dim, accumulated := 0 }],
        ?_, ?_, List.chain'_singleton _, ?_, ?_⟩
      · simp only [wireLayers, LayerSpec.Initialize_of_pos draw index spec dim hdim]
      · rfl
      · rfl
      · rfl
    | cons spec2 rest2 =>
      have hout : 0 < spec.outputWidth dim := by
        cases spec with
        | LinearLayer n => exact hwidth n (by simp)
        | TanhLayer => exact hdim
        | SoftmaxLayer => exact hdim
      obtain ⟨layers, hw, hspec, hwired, hhead, hlast⟩ :=
        ih (index + 1) (spec.outputWidth dim) hout (by
          intro n hn
          exact hwidth n (by
            rw [List.dropLast_cons_of_ne_nil (by simp)]
            exact List.mem_cons_of_mem _ hn))
      cases layers with
      | nil => simp at hspec
      | cons layer2 layers2 =>
        refine ⟨{ spec := spec, inputSize := dim, outputSize := spec.outputWidth dim,
                  params := draw index spec dim, accumulated := 0 } :: layer2 :: layers2,
          ?_, ?_, ?_, ?_, ?_⟩
        · simp only [wireLayers, LayerSpec.Initialize_of_pos draw index spec dim hdim]
          simp only [wireLayers] at hw
          rw [hw]
        · simp only [List.map_cons] at hspec ⊢
          rw [hspec]
        · refine List.Chain'.cons ?_ hwired
          simp only [List.head?_cons, Option.map_some', Option.some.injEq] at hhead
          exact hhead.symm
        · rfl
        · simp only [List.getLast?_cons_cons] at hlast ⊢
          rw [hlast]
          rfl

end Wiring

theorem Wired_getElem? {P : Type} (layers : List (Layer P)) (h : Wired layers) :
    ∀ i, i + 1 < layers.length →
      layers[i]?.map Layer.outputSize = layers[i + 1]?.map Layer.inputSize := by
  induction layers with
  | nil => intro i hi; simp at hi
  | cons a rest ih =>
    intro i hi
    cases rest with
    | nil => simp at hi
    | cons b rest2 =>
      have h2 := List.chain'_cons.1 h
      cases i with
      | zero => simp [h2.1]
      | succ i =>
        have := ih h2.2 i (by simpa using hi)
        simpa using this

/-- What `main`'s call of `Initialize` returns: the four layers wired 2->7, 7->7, 7->3 and
3->3. -/
theorem Initialize_main {P α : Type} [Zero P] (draw : Nat → LayerSpec → Int → P)
    (mlp : Perceptron P α) :
    Perceptron.Initialize draw mlp mainInputDim mainLayers
      = .ok { mlp with layers :=
          [ { spec := .LinearLayer 7, inputSize := 2, outputSize := 7,
              params := draw 0 (.LinearLayer 7) 2, accumulated := 0 },
            { spec := .TanhLayer, inputSize := 7, outputSize := 7,
              params := draw 1 .TanhLayer 7, accumulated := 0 },
            { spec := .LinearLayer 3, inputSize := 7, outputSize := 3,
              params := draw 2 (.LinearLayer 3) 7, accumulated := 0 },
            { spec := .SoftmaxLayer, inputSize := 3, outputSize := 3,
              params := draw 3 .SoftmaxLayer 3, accumulated := 0 } ] } := by
  simp [Perceptron.Initialize, mainLayers, mainInputDim, wireLayers, LayerSpec.Initialize,
    LayerSpec.outputWidth]

/-- What the first three statements of `main` build. -/
theorem mainNetwork_eq {P α : Type} [Zero P] [Zero α] [One α]
    (draw : Nat → LayerSpec → Int → P) :
    mainNetwork (α := α) draw
      = .ok {
          layers :=
            [ { spec := .LinearLayer 7, inputSize := 2, outputSize := 7,
                params := draw 0 (.LinearLayer 7) 2, accumulated := 0 },
              { spec := .TanhLayer, inputSize := 7, outputSize := 7,
                params := draw 1 .TanhLayer 7, accumulated := 0 },
              { spec := .LinearLayer 3, inputSize := 7, outputSize := 3,
                params := draw 2 (.LinearLayer 3) 7, accumulated := 0 },
              { spec := .SoftmaxLayer, inputSize := 3, outputSize := 3,
                params := draw 3 .SoftmaxLayer 3, accumulated := 0 } ],
          BatchSize := 32,
          LearningRate := 1 } := by
  simp only [mainNetwork, Initialize_main]
  rfl

/-- C1, the claim as stated fails: with input dimension 2 and the non-empty layer list
Linear(0), Tanh the second layer is fed dimension 0 and rejects it, so `Initialize`
yields no network. -/
theorem Initialize_zero_width_fails :
    (0 : Int) < 2 ∧ [LayerSpec.LinearLayer 0, LayerSpec.TanhLayer] ≠ [] ∧
    Perceptron.Initialize (P := ℚ) (α := ℚ) (fun _ _ _ => 0) Perceptron.empty 2
        [LayerSpec.LinearLayer 0, LayerSpec.TanhLayer]
      = .error .ConfigurationError := by
  refine ⟨by decide, by simp, ?_⟩
  simp [Perceptron.Initialize, wireLayers, LayerSpec.Initialize, LayerSpec.outputWidth]

/-- C1, as amended: for every positive input dimensionality and every non-empty list of
layer specifications in which every Linear layer that is followed by another layer has a
positive output width, `Initialize` returns a network with one layer per specification
in which the output dimensionality of layer `i` equals the input dimensionality of layer
`i + 1`, the first layer's input dimensionality equals `inputDim`, and the last layer's
output dimensionality is the one obtained by feeding `inputDim` through the list. -/
theorem Initialize_wires_sequentially {P α : Type} [Zero P] (draw : Nat → LayerSpec → Int → P)
    (mlp : Perceptron P α) (inputDim : Int) (layerSpecs : List LayerSpec)
    (hdim : 0 < inputDim) (hne : layerSpecs ≠ [])
    (hwidth : ∀ n, LayerSpec.LinearLayer n ∈ layerSpecs.dropLast → 0 < n) :
    ∃ net, Perceptron.Initialize draw mlp inputDim layerSpecs = .ok net ∧
      net.layers.map Layer.spec = layerSpecs ∧
      (∀ i, i + 1 < net.layers.length →
        net.layers[i]?.map Layer.outputSize = net.layers[i + 1]?.map Layer.inputSize) ∧
      net.layers.head?.map Layer.inputSize = some inputDim ∧
      net.layers.getLast?.map Layer.outputSize = some (fedDimension inputDim layerSpecs) := by
  obtain ⟨layers, hw, hspec, hwired, hhead, hlast⟩ :=
    wireLayers_ok draw layerSpecs 0 inputDim hdim hwidth
  cases layerSpecs with
  | nil => exact absurd rfl hne
  | cons spec rest =>
    refine ⟨{ mlp with layers := layers }, ?_, hspec, Wired_getElem? layers hwired, ?_, ?_⟩
    · simp only [Perceptron.Initialize, hw]
    · simpa using hhead
    · rw [hlast]
      cases rest <;> rfl

/-- C1, at `main`'s call `Initialize(2, Linear{Outputs: 7}, Tanh, Linear{Outputs: 3}, Softmax)`:
the call returns a network wired 2->7, 7->7, 7->3, 3->3, whose output dimensionality
is 3. -/
theorem Initialize_wires_main :
    (0 < mainInputDim ∧ mainLayers ≠ [] ∧
      ∀ n, LayerSpec.LinearLayer n ∈ mainLayers.dropLast → 0 < n) ∧
    (∃ net, Perceptron.Initialize (P := ℚ) (α := ℚ) (fun _ _ _ => 0) Perceptron.empty
          mainInputDim mainLayers = .ok net ∧
      net.layers.map Layer.spec = mainLayers ∧
      (∀ i, i + 1 < net.layers.length →
        net.layers[i]?.map Layer.outputSize = net.layers[i + 1]?.map Layer.inputSize) ∧
      net.layers.head?.map Layer.inputSize = some mainInputDim ∧
      net.layers.getLast?.map Layer.outputSize = some (fedDimension mainInputDim mainLayers)) ∧
    fedDimension mainInputDim mainLayers = 3 ∧
    (Perceptron.Initialize (P := ℚ) (α := ℚ) (fun _ _ _ => 0) Perceptron.empty
          mainInputDim mainLayers).map
        (fun net => net.layers.map (fun l => (l.inputSize, l.outputSize)))
      = .ok [(2, 7), (7, 7), (7, 3), (3, 3)] := by
  have h1 : 0 < mainInputDim := by decide
  have h2 : mainLayers ≠ [] := by simp [mainLayers]
  have h3 : ∀ n, LayerSpec.LinearLayer n ∈ mainLayers.dropLast → 0 < n := by
    intro n hn
    simp [mainLayers] at hn
    omega
  refine ⟨⟨h1, h2, h3⟩,
    Initialize_wires_sequentially (fun _ _ _ => 0) Perceptron.empty mainInputDim mainLayers
      h1 h2 h3, by decide, ?_⟩
  rw [Initialize_main]
  rfl

/-- C3: `Initialize` fails with `ConfigurationError` exactly when the layer list is empty or
some layer, initialised with the dimension the layers before it have passed on, rejects
it, and fails in no other way; `Train` fails with `ConfigurationError` exactly when
`trainingExamples` is empty, `BatchSize ≤ 0` or `LearningRate ≤ 0`, and fails in no other
way. -/
theorem ConfigurationError_exactly {α P : Type} [LinearOrderedField α] [AddCommGroup P]
    [Module α P] (draw : Nat → LayerSpec → Int → P) (mlp : Perceptron P α) (inputDim : Int)
    (layerSpecs : List LayerSpec) (sem : LayerSemantics α P) (clock : Nat → Nat)
    (rnd : Nat → Nat → Nat) (fuel : Nat) (net : Perceptron P α)
    (trainingExamples testingExamples : List (DataPoint α)) (timeBudget : Nat) :
    (Perceptron.Initialize draw mlp inputDim layerSpecs = .error .ConfigurationError ↔
      layerSpecs = [] ∨
      ∃ i spec, layerSpecs[i]? = some spec ∧
        (∀ j, j < i → 0 < fedDimension inputDim (layerSpecs.take j)) ∧
        spec.Initialize draw i (fedDimension inputDim (layerSpecs.take i))
          = .error .DimensionError) ∧
    (∀ e, Perceptron.Initialize draw mlp inputDim layerSpecs = .error e →
      e = .ConfigurationError) ∧
    (Perceptron.Train sem clock rnd fuel net trainingExamples testingExamples timeBudget
        = .error .ConfigurationError ↔
      trainingExamples = [] ∨ net.BatchSize ≤ 0 ∨ net.LearningRate ≤ 0) ∧
    (∀ e, Perceptron.Train sem clock rnd fuel net trainingExamples testingExamples timeBudget
        = .error e → e = .ConfigurationError) := by
  refine ⟨?_, ?_, ?_, ?_⟩
  · cases layerSpecs with
    | nil => simp [Perceptron.Initialize]
    | cons spec rest =>
      have hstep : Perceptron.Initialize draw mlp inputDim (spec :: rest)
            = .error .ConfigurationError ↔
          wireLayers draw 0 inputDim (spec :: rest) = .error .ConfigurationError := by
        simp only [Perceptron.Initialize]
        cases hw : wireLayers draw 0 inputDim (spec :: rest) with
        | error e => simp
        | ok layers => simp
      rw [hstep, wireLayers_error_iff]
      simp only [List.cons_ne_nil, false_or, LayerSpec.Initialize_error_iff]
      constructor
      · rintro ⟨i, hi, hbefore, hrej⟩
        exact ⟨i, (spec :: rest)[i], List.getElem?_eq_getElem hi, hbefore, hrej⟩
      · rintro ⟨i, s, hs, hbefore, hrej⟩
        exact ⟨i, (List.getElem?_eq_some_iff.1 hs).1, hbefore, hrej⟩
  · intro e h
    cases layerSpecs with
    | nil =>
      simp only [Perceptron.Initialize] at h
      cases h
      rfl
    | cons spec rest =>
      simp only [Perceptron.Initialize] at h
      cases hw : wireLayers draw 0 inputDim (spec :: rest) with
      | error e1 =>
        rw [hw] at h
        cases h
        exact wireLayers_error draw _ _ _ _ hw
      | ok layers =>
        rw [hw] at h
        cases h
  · have hlen : trainingExamples.length = 0 ↔ trainingExamples = [] := List.length_eq_zero
    unfold Perceptron.Train
    split_ifs with h
    · simpa [hlen] using h
    · simpa [hlen] using h
  · intro e h
    unfold Perceptron.Train at h
    split_ifs at h with hc
    cases h
    rfl

/-- C3, at `main`'s configuration: four layers, input dimension 2, 120 training examples,
`BatchSize = 32` and `LearningRate = 1` meet none of the failure conditions, so neither
`Initialize` nor `Train` fails: `main` reaches `Train`, and `Train` returns without an
error. -/
theorem main_configuration_accepted :
    Perceptron.Initialize (P := ℚ) (α := ℚ) (fun _ _ _ => 0) Perceptron.empty mainInputDim
        mainLayers ≠ .error .ConfigurationError ∧
    ∃ mlp data result,
      mainNetwork (P := ℚ) (α := ℚ) (fun _ _ _ => 0) = .ok mlp ∧
      mlp.layers.length = 4 ∧ mlp.BatchSize = 32 ∧ mlp.LearningRate = 1 ∧
      GetSpiralDataset (α := ℚ) (fun x => x) (fun x => x) (fun i => i) 57 = some data ∧
      (data.take 120).length = 120 ∧
      Perceptron.Train sampleSemantics (fun n => n * 1000000000) (fun _ i => i) 3 mlp
          (data.take 120) (data.drop 120) mainTimeBudget
        ≠ .error .ConfigurationError ∧
      main (α := ℚ) (P := ℚ) (fun x => x) (fun x => x) (fun i => i) 57 (fun _ _ _ => 0)
          sampleSemantics (fun n => n * 1000000000) (fun _ i => i) 3
        = some (.ok result) := by
  constructor
  · intro h
    have h1 := (ConfigurationError_exactly (α := ℚ) (P := ℚ) (fun _ _ _ => 0) Perceptron.empty
      mainInputDim mainLayers sampleSemantics (fun n => n) (fun _ i => i) 0 Perceptron.empty
      [] [] 0).1.1 h
    rcases h1 with h1 | ⟨i, spec, hs, _, hrej⟩
    · simp [mainLayers] at h1
    · rw [LayerSpec.Initialize_error_iff] at hrej
      have hi : i < 4 := by
        have := (List.getElem?_eq_some_iff.1 hs).1
        simpa [mainLayers] using this
      interval_cases i <;>
        simp [mainLayers, mainInputDim, fedDimension, LayerSpec.outputWidth] at hrej
  · obtain ⟨data, hdata, _, hlen, hpart⟩ :=
      GetSpiralDataset_partition (α := ℚ) (fun x => x) (fun x => x) (fun i => i) 57
        (Nat.le_refl 57)
    have htake : (data.take 120).length = 120 := by
      rw [List.length_take, hlen]; rfl
    have hok : Perceptron.Train sampleSemantics (fun n => n * 1000000000) (fun _ i => i) 3
        { layers :=
            [ { spec := .LinearLayer 7, inputSize := 2, outputSize := 7,
                params := (0 : ℚ), accumulated := 0 },
              { spec := .TanhLayer, inputSize := 7, outputSize := 7,
                params := 0, accumulated := 0 },
              { spec := .LinearLayer 3, inputSize := 7, outputSize := 3,
                params := 0, accumulated := 0 },
              { spec := .SoftmaxLayer, inputSize := 3, outputSize := 3,
                params := 0, accumulated := 0 } ],
          BatchSize := 32,
          LearningRate := (1 : ℚ) }
        (data.take 120) (data.drop 120) mainTimeBudget ≠ .error .ConfigurationError := by
      intro h
      have h2 := (ConfigurationError_exactly (α := ℚ) (P := ℚ) (fun _ _ _ => 0)
        Perceptron.empty mainInputDim mainLayers _ _ _ _ _ _ _ _).2.2.1.1 h
      rcases h2 with h2 | h2 | h2
      · rw [h2] at htake
        simp at htake
      · norm_num at h2
      · norm_num at h2
    cases hres : Perceptron.Train sampleSemantics (fun n => n * 1000000000) (fun _ i => i) 3
        { layers :=
            [ { spec := .LinearLayer 7, inputSize := 2, outputSize := 7,
                params := (0 : ℚ), accumulated := 0 },
              { spec := .TanhLayer, inputSize := 7, outputSize := 7,
                params := 0, accumulated := 0 },
              { spec := .LinearLayer 3, inputSize := 7, outputSize := 3,
                params := 0, accumulated := 0 },
              { spec := .SoftmaxLayer, inputSize := 3, outputSize := 3,
                params := 0, accumulated := 0 } ],
          BatchSize := 32,
          LearningRate := (1 : ℚ) }
        (data.take 120) (data.drop 120) mainTimeBudget with
    | error e =>
      have he := (ConfigurationError_exactly (α := ℚ) (P := ℚ) (fun _ _ _ => 0)
        Perceptron.empty mainInputDim mainLayers _ _ _ _ _ _ _ _).2.2.2 e hres
      subst he
      exact absurd hres hok
    | ok result =>
      refine ⟨_, data, result, mainNetwork_eq _, rfl, rfl, rfl, hdata, htake, hok, ?_⟩
      simp only [main, mainNetwork_eq, hdata, hpart, hres]

/-! ## Part 6: the geometry of the spiral, over the reals -/

theorem spiralPoints_on_circle (r : ℝ) (p : DataPoint ℝ)
    (hp : p ∈ spiralPoints Real.sin Real.cos r) :
    ∃ x y, p.Input = [x, y] ∧ x ^ 2 + y ^ 2 = r ^ 2 := by
  simp only [spiralPoints, List.mem_cons, List.mem_singleton, List.not_mem_nil, or_false] at hp
  rcases hp with rfl | rfl | rfl
  · refine ⟨_, _, rfl, ?_⟩
    have := Real.sin_sq_add_cos_sq r
    nlinarith [this]
  · refine ⟨_, _, rfl, ?_⟩
    have := Real.sin_sq_add_cos_sq (r + 2.049)
    nlinarith [this]
  · refine ⟨_, _, rfl, ?_⟩
    have := Real.sin_sq_add_cos_sq (r - 2.049)
    nlinarith [this]

/-- C10: over the reals, every example generated at loop radius `r` has `Input = (x, y)` with
`x^2 + y^2 = r^2`, whichever class it belongs to; the loop radii are the 56 values
`0.2 + 0.05 * k`, all in `[0.2, 3)`, so every input of the returned dataset lies in the
annulus `0.2 ≤ sqrt (x^2 + y^2) < 3` and has `|x| < 3` and `|y| < 3`. -/
theorem GetSpiralDataset_inputs_in_annulus (rnd : Nat → Nat) (fuel : Nat) (hfuel : 57 ≤ fuel) :
    (∀ (r : ℝ) (p : DataPoint ℝ), p ∈ spiralPoints Real.sin Real.cos r →
      ∃ x y, p.Input = [x, y] ∧ x ^ 2 + y ^ 2 = r ^ 2) ∧
    ∃ points data,
      spiralLoop Real.sin Real.cos fuel 0.2 [] = some points ∧
      GetSpiralDataset Real.sin Real.cos rnd fuel = some data ∧
      ∀ p, p ∈ points ∨ p ∈ data →
        ∃ (k : Nat) (x y : ℝ), k < 56 ∧
          p ∈ spiralPoints Real.sin Real.cos (0.2 + 0.05 * (k : ℝ)) ∧
          p.Input = [x, y] ∧
          x ^ 2 + y ^ 2 = (0.2 + 0.05 * (k : ℝ)) ^ 2 ∧
          (0.2 : ℝ) ≤ 0.2 + 0.05 * (k : ℝ) ∧ 0.2 + 0.05 * (k : ℝ) < 3 ∧
          0.2 ≤ Real.sqrt (x ^ 2 + y ^ 2) ∧ Real.sqrt (x ^ 2 + y ^ 2) < 3 ∧
          |x| < 3 ∧ |y| < 3 := by
  refine ⟨spiralPoints_on_circle, ?_⟩
  obtain ⟨data, hdata, hperm⟩ := GetSpiralDataset_perm Real.sin Real.cos rnd fuel hfuel
  refine ⟨generatedPoints Real.sin Real.cos, data, spiralLoop_eq _ _ fuel hfuel, hdata, ?_⟩
  intro p hp
  have hmem : p ∈ generatedPoints Real.sin Real.cos := by
    rcases hp with h | h
    · exact h
    · exact hperm.subset h
  obtain ⟨k, hk, hpk⟩ := (mem_generatedPoints _ _ p).1 hmem
  obtain ⟨x, y, hxy, hcirc⟩ := spiralPoints_on_circle _ p hpk
  obtain ⟨hlo, hhi⟩ := spiralRadius_bounds (α := ℝ) k hk
  have hr0 : (0 : ℝ) ≤ spiralRadius k := by
    have : (0 : ℝ) ≤ 0.2 := by norm_num
    linarith
  have hsqrt : Real.sqrt (x ^ 2 + y ^ 2) = spiralRadius k := by
    rw [hcirc, Real.sqrt_sq hr0]
  have hx : |x| ≤ Real.sqrt (x ^ 2 + y ^ 2) :=
    Real.abs_le_sqrt (by nlinarith [sq_nonneg y])
  have hy : |y| ≤ Real.sqrt (x ^ 2 + y ^ 2) :=
    Real.abs_le_sqrt (by nlinarith [sq_nonneg x])
  refine ⟨k, x, y, hk, hpk, hxy, hcirc, hlo, hhi, ?_, ?_, ?_, ?_⟩
  · rw [hsqrt]; exact hlo
  · rw [hsqrt]; exact hhi
  · rw [hsqrt] at hx; exact lt_of_le_of_lt hx hhi
  · rw [hsqrt] at hy; exact lt_of_le_of_lt hy hhi

/-- C10, at a concrete run: 57 tests of the loop condition and a random source that always
draws index 0. -/
theorem GetSpiralDataset_inputs_in_annulus_witness :
    57 ≤ 57 ∧
    (∀ (r : ℝ) (p : DataPoint ℝ), p ∈ spiralPoints Real.sin Real.cos r →
      ∃ x y, p.Input = [x, y] ∧ x ^ 2 + y ^ 2 = r ^ 2) ∧
    ∃ points data,
      spiralLoop Real.sin Real.cos 57 0.2 [] = some points ∧
      GetSpiralDataset Real.sin Real.cos (fun _ => 0) 57 = some data ∧
      ∀ p, p ∈ points ∨ p ∈ data →
        ∃ (k : Nat) (x y : ℝ), k < 56 ∧
          p ∈ spiralPoints Real.sin Real.cos (0.2 + 0.05 * (k : ℝ)) ∧
          p.Input = [x, y] ∧
          x ^ 2 + y ^ 2 = (0.2 + 0.05 * (k : ℝ)) ^ 2 ∧
          (0.2 : ℝ) ≤ 0.2 + 0.05 * (k : ℝ) ∧ 0.2 + 0.05 * (k : ℝ) < 3 ∧
          0.2 ≤ Real.sqrt (x ^ 2 + y ^ 2) ∧ Real.sqrt (x ^ 2 + y ^ 2) < 3 ∧
          |x| < 3 ∧ |y| < 3 :=
  ⟨Nat.le_refl 57, GetSpiralDataset_inputs_in_annulus (fun _ => 0) 57 (Nat.le_refl 57)⟩

/-- Two angles whose difference lies strictly between `-2π` and `2π` and is not zero do not
have the same sine and cosine. -/
theorem sin_cos_separate (u v : ℝ) (hne : u - v ≠ 0) (hlo : -(2 * Real.pi) < u - v)
    (hhi : u - v < 2 * Real.pi) : ¬ (Real.sin u = Real.sin v ∧ Real.cos u = Real.cos v) := by
  rintro ⟨hs, hc⟩
  have h1 : Real.cos (u - v) = 1 := by
    rw [Real.cos_sub, hs, hc]
    have := Real.sin_sq_add_cos_sq v
    nlinarith [this]
  exact hne ((Real.cos_eq_one_iff_of_lt_of_lt hlo hhi).1 h1)

/-- Neither 2.049 nor 4.098 is an integer multiple of `2π`. -/
theorem offsets_not_multiples (n : ℤ) :
    (n : ℝ) * (2 * Real.pi) ≠ 2.049 ∧ (n : ℝ) * (2 * Real.pi) ≠ 4.098 := by
  have hpi := Real.pi_gt_three
  rcases le_or_lt n 0 with hn | hn
  · have h0 : (n : ℝ) ≤ 0 := by exact_mod_cast hn
    have h1 : (n : ℝ) * (2 * Real.pi) ≤ 0 := by nlinarith
    constructor <;> intro h <;> rw [h] at h1 <;> norm_num at h1
  · have h0 : (1 : ℝ) ≤ (n : ℝ) := by exact_mod_cast hn
    have h1 : (6 : ℝ) < (n : ℝ) * (2 * Real.pi) := by nlinarith
    constructor <;> intro h <;> rw [h] at h1 <;> norm_num at h1

/-- The three examples generated at one positive radius have three different inputs. -/
theorem spiralPoints_inputs_nodup (r : ℝ) (hr : 0 < r) :
    ((spiralPoints Real.sin Real.cos r).map DataPoint.Input).Nodup := by
  have hpi := Real.pi_gt_three
  have hr0 : r ≠ 0 := ne_of_gt hr
  have key : ∀ u v : ℝ, u - v ≠ 0 → -(2 * Real.pi) < u - v → u - v < 2 * Real.pi →
      [r * Real.sin u, r * Real.cos u] ≠ [r * Real.sin v, r * Real.cos v] := by
    intro u v h1 h2 h3 h
    simp only [List.cons.injEq, and_true] at h
    exact sin_cos_separate u v h1 h2 h3
      ⟨mul_left_cancel₀ hr0 h.1, mul_left_cancel₀ hr0 h.2⟩
  simp only [spiralPoints, List.map_cons, List.map_nil, List.nodup_cons, List.mem_cons,
    List.mem_singleton, List.not_mem_nil, not_false_eq_true, List.nodup_nil, and_true, not_or]
  refine ⟨⟨?_, ?_⟩, ?_⟩
  · apply key
    · norm_num
    · norm_num; linarith
    · norm_num; linarith
  · apply key
    · norm_num
    · norm_num; linarith
    · norm_num; linarith
  · apply key
    · intro h; norm_num at h
    · have : r + 2.049 - (r - 2.049) = 4.098 := by norm_num
      rw [this]; linarith
    · have : r + 2.049 - (r - 2.049) = 4.098 := by norm_num
      rw [this]; linarith

/-- Examples generated at different positive radii have different inputs: they differ in
distance from the origin. -/
theorem spiralPoints_inputs_disjoint (r s : ℝ) (hr : 0 < r) (hs : 0 < s) (hrs : r ≠ s) :
    List.Disjoint ((spiralPoints Real.sin Real.cos r).map DataPoint.Input)
      ((spiralPoints Real.sin Real.cos s).map DataPoint.Input) := by
  intro v hv1 hv2
  obtain ⟨p, hp, rfl⟩ := List.mem_map.1 hv1
  obtain ⟨q, hq, hpq⟩ := List.mem_map.1 hv2
  obtain ⟨x, y, hxy, hc⟩ := spiralPoints_on_circle r p hp
  obtain ⟨x2, y2, hxy2, hc2⟩ := spiralPoints_on_circle s q hq
  rw [hxy, hxy2] at hpq
  simp only [List.cons.injEq, and_true] at hpq
  obtain ⟨rfl, rfl⟩ := hpq
  have h2 : r ^ 2 = s ^ 2 := by rw [← hc, ← hc2]
  have h3 : r = s := by
    have h4 : (r - s) * (r + s) = 0 := by nlinarith
    rcases mul_eq_zero.1 h4 with h | h <;> linarith
  exact hrs h3

theorem generatedPoints_inputs_nodup :
    ((generatedPoints Real.sin Real.cos).map DataPoint.Input).Nodup := by
  have hpos : ∀ k : Nat, (0 : ℝ) < spiralRadius k := by
    intro k
    unfold spiralRadius
    have : (0 : ℝ) ≤ (k : ℝ) := Nat.cast_nonneg k
    norm_num
    linarith
  rw [generatedPoints, List.map_flatMap, List.nodup_flatMap]
  constructor
  · intro r hr
    obtain ⟨k, _, rfl⟩ := List.mem_map.1 hr
    exact spiralPoints_inputs_nodup _ (hpos k)
  · rw [spiralRadii, List.pairwise_map]
    refine List.Pairwise.imp ?_ (List.nodup_range 56)
    intro a b hab
    exact spiralPoints_inputs_disjoint _ _ (hpos a) (hpos b)
      (fun h => hab (spiralRadius_injective h))

/-- C8: over the reals, the inputs of the examples `GetSpiralDataset` returns are pairwise
distinct points of the plane, so no input carries two different labels; the offsets
2.049 and 4.098 between the angles of one radius are not integer multiples of `2π`. -/
theorem GetSpiralDataset_inputs_distinct (rnd : Nat → Nat) (fuel : Nat) (hfuel : 57 ≤ fuel) :
    (∀ n : ℤ, (n : ℝ) * (2 * Real.pi) ≠ 2.049 ∧ (n : ℝ) * (2 * Real.pi) ≠ 4.098) ∧
    ∃ data,
      GetSpiralDataset Real.sin Real.cos rnd fuel = some data ∧
      (data.map DataPoint.Input).Nodup ∧
      (∀ i j, i < j → j < data.length →
        data[i]?.map DataPoint.Input ≠ data[j]?.map DataPoint.Input) ∧
      ∀ p ∈ data, ∀ q ∈ data, p.Input = q.Input → p.Output = q.Output := by
  refine ⟨offsets_not_multiples, ?_⟩
  obtain ⟨data, hdata, hperm⟩ := GetSpiralDataset_perm Real.sin Real.cos rnd fuel hfuel
  have hnodup : (data.map DataPoint.Input).Nodup :=
    ((hperm.map DataPoint.Input).nodup_iff).2 generatedPoints_inputs_nodup
  refine ⟨data, hdata, hnodup, ?_, ?_⟩
  · intro i j hij hj h
    have hi : i < data.length := by omega
    rw [List.getElem?_eq_getElem hi, List.getElem?_eq_getElem hj] at h
    simp only [Option.map_some', Option.some.injEq] at h
    have hi1 : i < (data.map DataPoint.Input).length := by simpa using hi
    have hj1 : j < (data.map DataPoint.Input).length := by simpa using hj
    have h1 : (data.map DataPoint.Input)[i] = (data.map DataPoint.Input)[j] := by
      simpa using h
    have := (List.Nodup.getElem_inj_iff hnodup).1 h1
    omega
  · intro p hp q hq hpq
    rw [List.inj_on_of_nodup_map hnodup hp hq hpq]

/-- C8, at a concrete run: 57 tests of the loop condition and a random source that always
draws index 0. -/
theorem GetSpiralDataset_inputs_distinct_witness :
    57 ≤ 57 ∧
    (∀ n : ℤ, (n : ℝ) * (2 * Real.pi) ≠ 2.049 ∧ (n : ℝ) * (2 * Real.pi) ≠ 4.098) ∧
    ∃ data,
      GetSpiralDataset Real.sin Real.cos (fun _ => 0) 57 = some data ∧
      (data.map DataPoint.Input).Nodup ∧
      (∀ i j, i < j → j < data.length →
        data[i]?.map DataPoint.Input ≠ data[j]?.map DataPoint.Input) ∧
      ∀ p ∈ data, ∀ q ∈ data, p.Input = q.Input → p.Output = q.Output :=
  ⟨Nat.le_refl 57, GetSpiralDataset_inputs_distinct (fun _ => 0) 57 (Nat.le_refl 57)⟩

/-! ## Part 7: softmax with cross-entropy, over the reals -/

theorem sum_range_ite (n c : Nat) :
    ((List.range n).map (fun i => if i = c then (1 : ℝ) else 0)).sum = if c < n then 1 else 0 := by
  induction n with
  | zero => simp
  | succ n ih =>
    rw [List.range_succ, List.map_append, List.sum_append, ih]
    by_cases h1 : c < n
    · have h2 : n ≠ c := by omega
      have h3 : c < n + 1 := by omega
      simp [h1, h2, h3]
    · by_cases h2 : n = c
      · subst h2
        simp
      · have h3 : ¬ c < n + 1 := by omega
        simp [h1, h2, h3]

theorem OneHot.sum_eq_one (t : List ℝ) (ht : OneHot t) : t.sum = 1 := by
  obtain ⟨c, hc, h⟩ := ht
  rw [h, sum_range_ite, if_pos hc]

theorem sum_exp_pos (z : List ℝ) (hz : z ≠ []) : 0 < (z.map Real.exp).sum := by
  cases z with
  | nil => exact absurd rfl hz
  | cons a rest =>
    have h1 : 0 ≤ (rest.map Real.exp).sum := by
      apply List.sum_nonneg
      intro x hx
      obtain ⟨y, _, rfl⟩ := List.mem_map.1 hx
      exact (Real.exp_pos y).le
    have h2 := Real.exp_pos a
    simp only [List.map_cons, List.sum_cons]
    linarith

/-- The loss of a vector of the form `exp w_j / S` against `t` is linear in `w` up to the
logarithm of the normaliser. -/
theorem sum_mul_log_div (S : ℝ) (hS : S ≠ 0) (t : List ℝ) :
    ∀ w : List ℝ,
      (List.zipWith (fun t p => t * Real.log p) t (w.map (fun wj => Real.exp wj / S))).sum
        = (List.zipWith (fun a b => a * b) t w).sum
          - (List.zipWith (fun a _ => a) t w).sum * Real.log S := by
  induction t with
  | nil => intro w; simp
  | cons a t ih =>
    intro w
    cases w with
    | nil => simp
    | cons b w =>
      simp only [List.map_cons, List.zipWith_cons_cons, List.sum_cons, ih w]
      rw [Real.log_div (Real.exp_ne_zero b) hS, Real.log_exp]
      ring

theorem zipWith_fst_of_length_eq (t : List ℝ) :
    ∀ w : List ℝ, t.length = w.length → List.zipWith (fun a _ => a) t w = t := by
  induction t with
  | nil => intro w _; simp
  | cons a t ih =>
    intro w h
    cases w with
    | nil => simp at h
    | cons b w =>
      simp only [List.zipWith_cons_cons, ih w (by simpa using h)]

theorem sum_zipWith_mul_set (t : List ℝ) :
    ∀ (z : List ℝ) (i : Nat) (x : ℝ), i < z.length → t.length = z.length →
      (List.zipWith (fun a b => a * b) t (z.set i x)).sum
        = (List.zipWith (fun a b => a * b) t z).sum + t.getD i 0 * (x - z.getD i 0) := by
  induction t with
  | nil => intro z i x hi h; simp at h; rw [← h] at hi; simp at hi
  | cons a t ih =>
    intro z i x hi h
    cases z with
    | nil => simp at h
    | cons b z =>
      cases i with
      | zero =>
        simp only [List.set_cons_zero, List.zipWith_cons_cons, List.sum_cons,
          List.getD_cons_zero]
        ring
      | succ i =>
        simp only [List.set_cons_succ, List.zipWith_cons_cons, List.sum_cons,
          List.getD_cons_succ]
        rw [ih z i x (by simpa using hi) (by simpa using h)]
        ring

theorem sum_map_exp_set :
    ∀ (z : List ℝ) (i : Nat) (x : ℝ), i < z.length →
      ((z.set i x).map Real.exp).sum
        = (z.map Real.exp).sum + (Real.exp x - Real.exp (z.getD i 0)) := by
  intro z
  induction z with
  | nil => intro i x hi; simp at hi
  | cons b z ih =>
    intro i x hi
    cases i with
    | zero =>
      simp only [List.set_cons_zero, List.map_cons, List.sum_cons, List.getD_cons_zero]
      ring
    | succ i =>
      simp only [List.set_cons_succ, List.map_cons, List.sum_cons, List.getD_cons_succ]
      rw [ih i x (by simpa using hi)]
      ring

theorem set_getD_self (z : List ℝ) (i : Nat) : z.set i (z.getD i 0) = z := by
  induction z generalizing i with
  | nil => simp
  | cons b z ih =>
    cases i with
    | zero => simp
    | succ i =>
      simp only [List.getD_cons_succ, List.set_cons_succ]
      rw [ih i]

/-- The cross-entropy loss of `softmax w` against `t`, in closed form. -/
theorem crossEntropy_softmax (t w : List ℝ) (hw : w ≠ []) (hlen : t.length = w.length) :
    crossEntropy Real.log (softmax Real.exp w) t
      = -(List.zipWith (fun a b => a * b) t w).sum + t.sum * Real.log (w.map Real.exp).sum := by
  unfold crossEntropy softmax
  rw [sum_mul_log_div _ (ne_of_gt (sum_exp_pos w hw)), zipWith_fst_of_length_eq t w hlen]
  ring

theorem sum_map_exp_shift (m : ℝ) (z : List ℝ) :
    ((z.map (fun zi => zi - m)).map Real.exp).sum = Real.exp (-m) * (z.map Real.exp).sum := by
  induction z with
  | nil => simp
  | cons a z ih =>
    simp only [List.map_cons, List.sum_cons, ih]
    rw [sub_eq_add_neg, Real.exp_add]
    ring

/-- Subtracting a constant from every input does not change the softmax. -/
theorem softmax_shift (m : ℝ) (z : List ℝ) :
    softmax Real.exp (z.map (fun zi => zi - m)) = softmax Real.exp z := by
  unfold softmax
  rw [sum_map_exp_shift, List.map_map]
  apply List.map_congr_left
  intro a _
  simp only [Function.comp_apply]
  rw [sub_eq_add_neg, Real.exp_add, mul_comm (Real.exp a) (Real.exp (-m)),
    mul_div_mul_left _ _ (Real.exp_ne_zero (-m))]

theorem softmax_getD (z : List ℝ) (i : Nat) (hi : i < z.length) :
    (softmax Real.exp z).getD i 0 = Real.exp (z.getD i 0) / (z.map Real.exp).sum := by
  simp [softmax, List.getD, List.getElem?_map, List.getElem?_eq_getElem hi]

/-- C6: over the reals, for every non-empty input vector `z` and every one-hot target `t` of
the same length, the partial derivative of the cross-entropy loss
`-Σ_j t_j * log(softmax(z)_j)` with respect to each `z_i` is `softmax(z)_i - t_i`, the
`i`-th entry of the layer's simplified gradient `output - target`; the stabilized
`Forward` of the Softmax layer computes the same `softmax(z)`. -/
theorem softmax_crossEntropy_gradient (z t : List ℝ) (hz : z ≠ [])
    (hlen : t.length = z.length) (ht : OneHot t) :
    SoftmaxForward Real.exp z = softmax Real.exp z ∧
    (softmaxCrossEntropyGradient (softmax Real.exp z) t).length = z.length ∧
    ∀ i, i < z.length →
      (softmaxCrossEntropyGradient (softmax Real.exp z) t).getD i 0
        = Real.exp (z.getD i 0) / (z.map Real.exp).sum - t.getD i 0 ∧
      HasDerivAt (fun x => crossEntropy Real.log (softmax Real.exp (z.set i x)) t)
        ((softmaxCrossEntropyGradient (softmax Real.exp z) t).getD i 0) (z.getD i 0) := by
  have hS := sum_exp_pos z hz
  have hT := OneHot.sum_eq_one t ht
  have hsl : (softmax Real.exp z).length = z.length := by simp [softmax]
  refine ⟨softmax_shift _ z, ?_, ?_⟩
  · simp [softmaxCrossEntropyGradient, hsl, hlen]
  intro i hi
  have hgrad : (softmaxCrossEntropyGradient (softmax Real.exp z) t).getD i 0
      = Real.exp (z.getD i 0) / (z.map Real.exp).sum - t.getD i 0 := by
    rw [← softmax_getD z i hi]
    have hi1 : i < (softmax Real.exp z).length := by rw [hsl]; exact hi
    have hi2 : i < t.length := by rw [hlen]; exact hi
    simp [softmaxCrossEntropyGradient, List.getD, List.getElem?_zipWith,
      List.getElem?_eq_getElem hi1, List.getElem?_eq_getElem hi2]
  refine ⟨hgrad, ?_⟩
  rw [hgrad]
  have hf : (fun x => crossEntropy Real.log (softmax Real.exp (z.set i x)) t)
      = fun x => -((List.zipWith (fun a b => a * b) t z).sum
            + t.getD i 0 * (x - z.getD i 0))
          + t.sum * Real.log ((z.map Real.exp).sum
              + (Real.exp x - Real.exp (z.getD i 0))) := by
    funext x
    have hne : z.set i x ≠ [] := by
      intro h
      have := congrArg List.length h
      simp at this
      exact hz this
    rw [crossEntropy_softmax t (z.set i x) hne (by simpa using hlen),
      sum_zipWith_mul_set t z i x hi hlen, sum_map_exp_set z i x hi]
  rw [hf, hT]
  have h1 : HasDerivAt (fun x : ℝ => (List.zipWith (fun a b => a * b) t z).sum
      + t.getD i 0 * (x - z.getD i 0)) (t.getD i 0 * 1) (z.getD i 0) :=
    (((hasDerivAt_id (z.getD i 0)).sub_const (z.getD i 0)).const_mul (t.getD i 0)).const_add _
  have h2 : HasDerivAt (fun x : ℝ => (z.map Real.exp).sum
      + (Real.exp x - Real.exp (z.getD i 0))) (Real.exp (z.getD i 0)) (z.getD i 0) :=
    ((Real.hasDerivAt_exp (z.getD i 0)).sub_const _).const_add _
  have hne0 : (z.map Real.exp).sum + (Real.exp (z.getD i 0) - Real.exp (z.getD i 0)) ≠ 0 := by
    rw [sub_self, add_zero]
    exact ne_of_gt hS
  have h3 := (h2.log hne0).const_mul (1 : ℝ)
  have h4 := h1.neg.add h3
  convert h4 using 1
  rw [sub_self, add_zero]
  ring

/-- C6, at the input `z = (0, 0)` with target `t = (1, 0)`. -/
theorem softmax_crossEntropy_gradient_witness :
    ([0, 0] : List ℝ) ≠ [] ∧ ([1, 0] : List ℝ).length = ([0, 0] : List ℝ).length ∧
    OneHot ([1, 0] : List ℝ) ∧
    SoftmaxForward Real.exp [0, 0] = softmax Real.exp [0, 0] ∧
    (softmaxCrossEntropyGradient (softmax Real.exp [0, 0]) [1, 0]).length
      = ([0, 0] : List ℝ).length ∧
    ∀ i, i < ([0, 0] : List ℝ).length →
      (softmaxCrossEntropyGradient (softmax Real.exp [0, 0]) [1, 0]).getD i 0
        = Real.exp (([0, 0] : List ℝ).getD i 0) / (([0, 0] : List ℝ).map Real.exp).sum
          - ([1, 0] : List ℝ).getD i 0 ∧
      HasDerivAt (fun x => crossEntropy Real.log (softmax Real.exp (([0, 0] : List ℝ).set i x))
          [1, 0])
        ((softmaxCrossEntropyGradient (softmax Real.exp [0, 0]) [1, 0]).getD i 0)
        (([0, 0] : List ℝ).getD i 0) := by
  have h1 : ([0, 0] : List ℝ) ≠ [] := by simp
  have h2 : ([1, 0] : List ℝ).length = ([0, 0] : List ℝ).length := rfl
  have h3 : OneHot ([1, 0] : List ℝ) := ⟨0, by simp, by simp [List.range_succ]⟩
  exact ⟨h1, h2, h3, softmax_crossEntropy_gradient [0, 0] [1, 0] h1 h2 h3⟩

/-! ## Part 8: batches and the parameter update -/

section Batches
variable {β : Type}

end Batches

section TrainerLemmas
variable {α P : Type} [LinearOrderedField α] [AddCommGroup P] [Module α P]

end TrainerLemmas

end Lossless
